import Mathlib

/-!
# Snake::Controller — a shallow embedding of `SnakeController.cpp`

The controller's member functions are translated one by one into pure
functions over an explicit `Controller` state.  The three output ports are
modelled by the ordered list of notifications that the calls to `send`
produce.  A value of the C++ type `int` is modelled by a mathematical
integer: signed overflow has no defined behaviour in C++, so the model
describes every execution whose behaviour the language defines.  The places
where the source itself leaves the behaviour undefined (the missing `return`
of `adjustDirection`, `front()` of an empty list, reading a variable that no
extraction has written) are modelled by the fault `Fault.undefinedBehaviour`.
-/

namespace Snake

/-- Modelled from the spec: the enumeration `Direction`, declared in a header
(`SnakeInterface.hpp`) that is not among the sources at hand. -/
inductive Direction where
  | UP
  | DOWN
  | LEFT
  | RIGHT
  deriving DecidableEq, Repr

/-- Modelled from the spec: the 2-bit code of a direction, bit 0 the axis
(0 = vertical, 1 = horizontal) and bit 1 the sign (0 = negative, 1 = positive). -/
def Direction.code : Direction → Nat
  | .UP => 0b00
  | .DOWN => 0b10
  | .LEFT => 0b01
  | .RIGHT => 0b11

/-- Modelled from the spec: the structure `Segment`, declared in the same missing
header: three `int` fields, as the source uses them. -/
structure Segment where
  x : Int
  y : Int
  ttl : Int
  deriving DecidableEq, Repr

/-- Modelled from the spec: the cell states a display notification carries. -/
inductive Cell where
  | FREE
  | SNAKE
  | FOOD
  deriving DecidableEq, Repr

/-- One call of `send` on one of the three ports: `DisplayInd` goes to the
display port, `FoodReq` to the food port, `ScoreInd` and `LooseInd` to the
score port. -/
inductive Notification where
  | DisplayInd (x : Int) (y : Int) (value : Cell)
  | FoodReq
  | ScoreInd
  | LooseInd
  deriving DecidableEq, Repr

/-- The dynamic type of a received event, with its payload; `other` stands for
every event that is none of the four `EventT` instances `receive` casts to. -/
inductive Event where
  | TimeoutInd
  | DirectionInd (direction : Direction)
  | FoodInd (x : Int) (y : Int)
  | FoodResp (x : Int) (y : Int)
  | other
  deriving DecidableEq, Repr

/-- The ways a member function can end without a result: the two exceptions
of the source, and behaviour the language leaves undefined. -/
inductive Fault where
  | ConfigurationError
  | UnexpectedEventException
  | undefinedBehaviour
  deriving DecidableEq, Repr

/-- The data members of `Snake::Controller` (the three port references are
represented by the notification list the functions return). -/
structure Controller where
  m_mapDimension : Int × Int
  m_foodPosition : Int × Int
  m_currentDirection : Direction
  m_segments : List Segment
  deriving DecidableEq, Repr

/-- `Controller::checkDirection`. -/
def checkDirection (input : Char) : Except Fault Direction :=
  if input = 'U' then .ok Direction.UP
  else if input = 'D' then .ok Direction.DOWN
  else if input = 'L' then .ok Direction.LEFT
  else if input = 'R' then .ok Direction.RIGHT
  else .error Fault.ConfigurationError

/-- `Controller::adjustDirection`: the only `return` is inside the `if`; when
the axis bits agree control reaches the end of the function without a value. -/
def adjustDirection (c : Controller) (direction : Direction) : Except Fault Direction :=
  if (c.m_currentDirection.code &&& 0b01) ≠ (direction.code &&& 0b01) then
    .ok direction
  else
    .error Fault.undefinedBehaviour

/-- `Controller::placeNewReceivedFood`. -/
def placeNewReceivedFood (c : Controller) (requestedFoodCollidedWithSnake : Bool)
    (foodToPlace : Int × Int) : List Notification :=
  if requestedFoodCollidedWithSnake then
    [Notification.FoodReq]
  else
    [Notification.DisplayInd c.m_foodPosition.1 c.m_foodPosition.2 Cell.FREE,
     Notification.DisplayInd foodToPlace.1 foodToPlace.2 Cell.FOOD]

/-- `Controller::placeNewRequestedFood`. -/
def placeNewRequestedFood (_c : Controller) (requestedFoodCollidedWithSnake : Bool)
    (foodToPlace : Int × Int) : List Notification :=
  if requestedFoodCollidedWithSnake then
    [Notification.FoodReq]
  else
    [Notification.DisplayInd foodToPlace.1 foodToPlace.2 Cell.FOOD]

/-- The scan shared by the three collision checks: the first segment with the
given coordinates ends the loop with `true`. -/
def collides : List Segment → Int → Int → Bool
  | [], _, _ => false
  | segment :: rest, x, y =>
    if segment.x = x ∧ segment.y = y then true else collides rest x y

/-- `Controller::checkIfNewHeadCollidesWithBody`: the result and what was sent. -/
def checkIfNewHeadCollidesWithBody (c : Controller) (head : Segment) :
    Bool × List Notification :=
  if collides c.m_segments head.x head.y then (true, [Notification.LooseInd])
  else (false, [])

/-- `Controller::checkIfReceivedFoodCollidedWithSnake`. -/
def checkIfReceivedFoodCollidedWithSnake (c : Controller) (food : Int × Int) : Bool :=
  collides c.m_segments food.1 food.2

/-- `Controller::checkIfRequestedFoodCollidedWithSnake`. -/
def checkIfRequestedFoodCollidedWithSnake (c : Controller) (food : Int × Int) : Bool :=
  collides c.m_segments food.1 food.2

/-- `Controller::makeHead`; `front()` of an empty list has no defined behaviour. -/
def makeHead (c : Controller) : Except Fault Segment :=
  match c.m_segments with
  | [] => .error Fault.undefinedBehaviour
  | currentHead :: _ =>
    .ok { x := currentHead.x +
            (if (c.m_currentDirection.code &&& 0b01) ≠ 0 then
               (if (c.m_currentDirection.code &&& 0b10) ≠ 0 then 1 else -1)
             else 0),
          y := currentHead.y +
            (if ¬ ((c.m_currentDirection.code &&& 0b01) ≠ 0) then
               (if (c.m_currentDirection.code &&& 0b10) ≠ 0 then 1 else -1)
             else 0),
          ttl := currentHead.ttl }

/-- The loop of the last branch of `checkIfSnakeCanBeMoved`: every segment's
ttl is pre-decremented, and a segment whose ttl is then zero is cleared on
the display. -/
def decaySegments : List Segment → List Segment × List Notification
  | [] => ([], [])
  | segment :: rest =>
    let ttl := segment.ttl - 1
    let sent := if ttl = 0 then [Notification.DisplayInd segment.x segment.y Cell.FREE] else []
    let r := decaySegments rest
    ({ segment with ttl := ttl } :: r.1, sent ++ r.2)

/-- `Controller::checkIfSnakeCanBeMoved`: the result, the state after the
call and what was sent. -/
def checkIfSnakeCanBeMoved (c : Controller) (head : Segment) :
    Bool × Controller × List Notification :=
  if (head.x, head.y) = c.m_foodPosition then
    (false, c, [Notification.ScoreInd, Notification.FoodReq])
  else if head.x < 0 ∨ head.y < 0 ∨ head.x ≥ c.m_mapDimension.1 ∨
      head.y ≥ c.m_mapDimension.2 then
    (true, c, [Notification.LooseInd])
  else
    let r := decaySegments c.m_segments
    (false, { c with m_segments := r.1 }, r.2)

/-- `Controller::moveSnake`. -/
def moveSnake (c : Controller) (head : Segment) : Controller × List Notification :=
  ({ c with m_segments := (head :: c.m_segments).filter (fun segment => decide (segment.ttl > 0)) },
   [Notification.DisplayInd head.x head.y Cell.SNAKE])

/-- `Controller::receive`: the chain of `dynamic_cast`s is the match on the
event's dynamic type. -/
def receive (c : Controller) (e : Event) : Except Fault (Controller × List Notification) :=
  match e with
  | .TimeoutInd =>
    match makeHead c with
    | .error f => .error f
    | .ok newHead =>
      let r1 := checkIfNewHeadCollidesWithBody c newHead
      if r1.1 then .ok (c, r1.2)
      else
        let r2 := checkIfSnakeCanBeMoved c newHead
        if r2.1 then .ok (r2.2.1, r1.2 ++ r2.2.2)
        else
          let r3 := moveSnake r2.2.1 newHead
          .ok (r3.1, r1.2 ++ r2.2.2 ++ r3.2)
  | .DirectionInd direction =>
    match adjustDirection c direction with
    | .error f => .error f
    | .ok d => .ok ({ c with m_currentDirection := d }, [])
  | .FoodInd x y =>
    let requestedFoodCollidedWithSnake := checkIfReceivedFoodCollidedWithSnake c (x, y)
    let sent := placeNewReceivedFood c requestedFoodCollidedWithSnake (x, y)
    .ok ({ c with m_foodPosition := (x, y) }, sent)
  | .FoodResp x y =>
    let requestedFoodCollidedWithSnake := checkIfRequestedFoodCollidedWithSnake c (x, y)
    let sent := placeNewRequestedFood c requestedFoodCollidedWithSnake (x, y)
    .ok ({ c with m_foodPosition := (x, y) }, sent)
  | .other => .error Fault.UnexpectedEventException

/-- What a call of `receive` leaves behind whichever way it ends: the data
members, the notifications sent during the call, and the fault that ended
the call, if one did. -/
structure Outcome where
  state : Controller
  sent : List Notification
  fault : Option Fault
  deriving DecidableEq, Repr

/-- `Controller::receive` with the members and the notifications recorded also
when the call ends by a fault.  The `throw UnexpectedEventException()` of the
innermost `catch` is reached when the four casts have failed, each of them
the first statement of its `try` block: nothing has been sent and no member
has been written.  The two undefined reads (`front()` in `makeHead`, the
missing `return` of `adjustDirection`) likewise come before any `send`. -/
def receiveOutcome (c : Controller) (e : Event) : Outcome :=
  match e with
  | .TimeoutInd =>
    match makeHead c with
    | .error f => { state := c, sent := [], fault := some f }
    | .ok newHead =>
      let r1 := checkIfNewHeadCollidesWithBody c newHead
      if r1.1 then { state := c, sent := r1.2, fault := none }
      else
        let r2 := checkIfSnakeCanBeMoved c newHead
        if r2.1 then { state := r2.2.1, sent := r1.2 ++ r2.2.2, fault := none }
        else
          let r3 := moveSnake r2.2.1 newHead
          { state := r3.1, sent := r1.2 ++ r2.2.2 ++ r3.2, fault := none }
  | .DirectionInd direction =>
    match adjustDirection c direction with
    | .error f => { state := c, sent := [], fault := some f }
    | .ok d => { state := { c with m_currentDirection := d }, sent := [], fault := none }
  | .FoodInd x y =>
    let requestedFoodCollidedWithSnake := checkIfReceivedFoodCollidedWithSnake c (x, y)
    let sent := placeNewReceivedFood c requestedFoodCollidedWithSnake (x, y)
    { state := { c with m_foodPosition := (x, y) }, sent := sent, fault := none }
  | .FoodResp x y =>
    let requestedFoodCollidedWithSnake := checkIfRequestedFoodCollidedWithSnake c (x, y)
    let sent := placeNewRequestedFood c requestedFoodCollidedWithSnake (x, y)
    { state := { c with m_foodPosition := (x, y) }, sent := sent, fault := none }
  | .other => { state := c, sent := [], fault := some Fault.UnexpectedEventException }

/-- The result of a call, as `receive` reports it: the fault, or the state and
the notifications. -/
def Outcome.result (o : Outcome) : Except Fault (Controller × List Notification) :=
  match o.fault with
  | some f => .error f
  | none => .ok (o.state, o.sent)

/-! ## Construction from the configuration text

The constructor reads the text through a `std::istringstream`.  The stream is
modelled by the characters not yet read and its `failbit`; a local variable
that an extraction may leave unwritten is an `Option`, `none` standing for the
indeterminate value of an uninitialised variable. -/

/-- The smallest value of the type `int` (32 bits). -/
def INT_MIN : Int := -2147483648

/-- The largest value of the type `int` (32 bits). -/
def INT_MAX : Int := 2147483647

/-- The state of the `std::istringstream istr`. -/
structure IStringStream where
  buffer : List Char
  failbit : Bool
  deriving DecidableEq, Repr

/-- The characters `std::isspace` accepts in the "C" locale: space and the
control characters 9 to 13. -/
def isspace (ch : Char) : Bool :=
  decide (ch = ' ') || (decide (9 ≤ ch.toNat) && decide (ch.toNat ≤ 13))

/-- The decimal digits `'0'` to `'9'`. -/
def isdigit (ch : Char) : Bool :=
  decide ('0'.toNat ≤ ch.toNat) && decide (ch.toNat ≤ '9'.toNat)

/-- The whitespace skipping every formatted extraction starts with. -/
def skipWhitespace (buffer : List Char) : List Char :=
  buffer.dropWhile isspace

/-- The value of a run of decimal digits. -/
def digitsValue (digits : List Char) : Nat :=
  digits.foldl (fun acc ch => 10 * acc + (ch.toNat - '0'.toNat)) 0

/-- `istr >> var` for a `char`: a failed stream leaves the variable alone;
otherwise whitespace is skipped and the next character is stored, the stream
failing when there is none. -/
def IStringStream.extractChar (istr : IStringStream) (var : Option Char) :
    IStringStream × Option Char :=
  if istr.failbit then (istr, var)
  else
    match skipWhitespace istr.buffer with
    | [] => ({ buffer := [], failbit := true }, var)
    | ch :: rest => ({ buffer := rest, failbit := false }, some ch)

/-- `istr >> var` for an `int`: a failed or exhausted stream leaves the
variable alone; otherwise an optional sign and the longest run of decimal
digits are read.  With no digit the stream fails and 0 is stored; a value
outside `int` makes the stream fail and stores the nearest bound. -/
def IStringStream.extractInt (istr : IStringStream) (var : Option Int) :
    IStringStream × Option Int :=
  if istr.failbit then (istr, var)
  else
    match skipWhitespace istr.buffer with
    | [] => ({ buffer := [], failbit := true }, var)
    | ch :: rest =>
      let unsignedPart := if ch = '-' ∨ ch = '+' then rest else ch :: rest
      let digits := unsignedPart.takeWhile isdigit
      let remaining := unsignedPart.dropWhile isdigit
      if digits = [] then ({ buffer := remaining, failbit := true }, some 0)
      else
        let magnitude : Int := (digitsValue digits : Nat)
        let value : Int := if ch = '-' then -magnitude else magnitude
        if value < INT_MIN then ({ buffer := remaining, failbit := true }, some INT_MIN)
        else if value > INT_MAX then ({ buffer := remaining, failbit := true }, some INT_MAX)
        else ({ buffer := remaining, failbit := false }, some value)

/-- Reading a local variable: the value of an uninitialised one is
indeterminate, and using it has no defined behaviour. -/
def readVariable {α : Type} (var : Option α) : Except Fault α :=
  match var with
  | some v => .ok v
  | none => .error Fault.undefinedBehaviour

/-- The loop `while (length) { ... seg.ttl = length--; push_back(seg); }` of the
constructor, for a `length` that is not negative; the argument is the number
of iterations left, which is the value of `length`. -/
def readSegments : Nat → IStringStream → Except Fault (List Segment)
  | 0, _ => .ok []
  | length + 1, istr =>
    let r1 := istr.extractInt none
    let r2 := r1.1.extractInt none
    match readVariable r1.2, readVariable r2.2 with
    | .ok x, .ok y =>
      match readSegments length r2.1 with
      | .ok rest => .ok ({ x := x, y := y, ttl := ((length + 1 : Nat) : Int) } :: rest)
      | .error e => .error e
    | .error e, _ => .error e
    | _, .error e => .error e

/-- The condition `w == 'W' and f == 'F' and s == 'S'`, evaluated from left to
right and only as far as needed. -/
def tagsMatch (w f s : Option Char) : Except Fault Bool :=
  match readVariable w with
  | .error e => .error e
  | .ok w =>
    if w = 'W' then
      match readVariable f with
      | .error e => .error e
      | .ok f =>
        if f = 'F' then
          match readVariable s with
          | .error e => .error e
          | .ok s => .ok (decide (s = 'S'))
        else .ok false
    else .ok false

/-- `Controller::Controller`, as a function from the configuration text to the
constructed state or the fault that ends the construction.  A negative
`length` never makes `while (length)` false before the extractions have run
out of text and the counter out of `int`: no defined behaviour. -/
def Controller.Controller (p_config : List Char) : Except Fault Controller :=
  let istr : IStringStream := { buffer := p_config, failbit := false }
  let rw := istr.extractChar none
  let rwidth := rw.1.extractInt none
  let rheight := rwidth.1.extractInt none
  let rf := rheight.1.extractChar none
  let rfoodX := rf.1.extractInt none
  let rfoodY := rfoodX.1.extractInt none
  let rs := rfoodY.1.extractChar none
  match tagsMatch rw.2 rf.2 rs.2 with
  | .error e => .error e
  | .ok false => .error Fault.ConfigurationError
  | .ok true =>
    match readVariable rwidth.2, readVariable rheight.2, readVariable rfoodX.2,
        readVariable rfoodY.2 with
    | .ok width, .ok height, .ok foodX, .ok foodY =>
      let rd := rs.1.extractChar none
      match readVariable rd.2 with
      | .error e => .error e
      | .ok d =>
        match checkDirection d with
        | .error e => .error e
        | .ok direction =>
          let rlength := rd.1.extractInt none
          match readVariable rlength.2 with
          | .error e => .error e
          | .ok length =>
            if length < 0 then .error Fault.undefinedBehaviour
            else
              match readSegments length.toNat rlength.1 with
              | .error e => .error e
              | .ok segments =>
                .ok { m_mapDimension := (width, height), m_foodPosition := (foodX, foodY),
                      m_currentDirection := direction, m_segments := segments }
    | _, _, _, _ => .error Fault.undefinedBehaviour

/-! ## The claims' own vocabulary -/

/-- A segment with its ttl decreased by one. -/
def Segment.decremented (s : Segment) : Segment := { s with ttl := s.ttl - 1 }

/-- The axis bit of a direction: bit 0 of its code. -/
def Direction.axisBit (d : Direction) : Nat := d.code &&& 0b01

/-- Some segment of the body lies on the cell `(x, y)`. -/
def OnBody (body : List Segment) (x y : Int) : Prop :=
  ∃ s ∈ body, s.x = x ∧ s.y = y

/-- The cell `(x, y)` lies inside `[0,width) x [0,height)`. -/
def InBounds (c : Controller) (x y : Int) : Prop :=
  0 ≤ x ∧ x < c.m_mapDimension.1 ∧ 0 ≤ y ∧ y < c.m_mapDimension.2

/-- The body an ordinary tick is said to yield: the new head, then every old
segment with its ttl decreased by one, those that reached zero left out. -/
def ordinaryTickBody (newHead : Segment) (body : List Segment) : List Segment :=
  newHead :: (body.map Segment.decremented).filter (fun s => decide (s.ttl > 0))

/-- The notifications an ordinary tick is said to emit: a display FREE for each
old segment whose ttl reached zero, in body order, then a display SNAKE at the
new head. -/
def ordinaryTickSent (newHead : Segment) (body : List Segment) : List Notification :=
  (body.filter (fun s => decide (s.ttl - 1 = 0))).map
      (fun s => Notification.DisplayInd s.x s.y Cell.FREE) ++
    [Notification.DisplayInd newHead.x newHead.y Cell.SNAKE]

/-- An integer that the type `int` can hold. -/
def IsInt (v : Int) : Prop := INT_MIN ≤ v ∧ v ≤ INT_MAX

/-- The letter that names a direction in the configuration text. -/
def Direction.letter : Direction → Char
  | .UP => 'U'
  | .DOWN => 'D'
  | .LEFT => 'L'
  | .RIGHT => 'R'

/-- The decimal numeral of an integer, with a minus sign when negative. -/
def renderInt (v : Int) : List Char :=
  if v < 0 then '-' :: Nat.toDigits 10 v.natAbs else Nat.toDigits 10 v.natAbs

/-- The tokens of a text, each preceded by one space. -/
def spaced : List (List Char) → List Char
  | [] => []
  | token :: tokens => ' ' :: (token ++ spaced tokens)

/-- The tokens `x1 y1 ... xn yn` of the initial segments. -/
def segmentTokens : List (Int × Int) → List (List Char)
  | [] => []
  | p :: rest => renderInt p.1 :: renderInt p.2 :: segmentTokens rest

/-- The configuration text `W w h F fx fy S d n x1 y1 ... xn yn`, its tokens
separated by single spaces, `n` the number of coordinate pairs. -/
def configText (w h fx fy : Int) (d : Char) (coords : List (Int × Int)) : List Char :=
  'W' :: spaced ([renderInt w, renderInt h, ['F'], renderInt fx, renderInt fy, ['S'], [d],
    renderInt (coords.length : Int)] ++ segmentTokens coords)

/-- The body the configuration is said to give: the segments in the order
read, the first with ttl `n`, each next one with one less, the last with 1. -/
def initialBody : List (Int × Int) → List Segment
  | [] => []
  | p :: rest => { x := p.1, y := p.2, ttl := ((rest.length + 1 : Nat) : Int) } :: initialBody rest

/-- The text after a numeral does not go on with a digit. -/
def EndsNumeral (rest : List Char) : Prop :=
  ∀ ch ∈ rest.head?, isdigit ch = false

instance (v : Int) : Decidable (IsInt v) := by
  unfold IsInt
  infer_instance

instance (body : List Segment) (x y : Int) : Decidable (OnBody body x y) := by
  unfold OnBody
  infer_instance

instance (c : Controller) (x y : Int) : Decidable (InBounds c x y) := by
  unfold InBounds
  infer_instance

instance {ε α : Type} [DecidableEq ε] [DecidableEq α] : DecidableEq (Except ε α)
  | .ok a, .ok b => if h : a = b then isTrue (by rw [h]) else isFalse (fun e => h (by cases e; rfl))
  | .error a, .error b =>
    if h : a = b then isTrue (by rw [h]) else isFalse (fun e => h (by cases e; rfl))
  | .ok _, .error _ => isFalse (fun e => by cases e)
  | .error _, .ok _ => isFalse (fun e => by cases e)

/-- The tick handler as the spec composes it (4.8): compute the head (4.3),
run the self-collision check (4.4), if not colliding the feasibility and
effects check (4.5), and if the move is permitted commit it (4.6). -/
def tickHandler (c : Controller) : Except Fault (Controller × List Notification) :=
  match makeHead c with
  | .error f => .error f
  | .ok candidateHead =>
    let collision := checkIfNewHeadCollidesWithBody c candidateHead
    if collision.1 then .ok (c, collision.2)
    else
      let feasibility := checkIfSnakeCanBeMoved c candidateHead
      if feasibility.1 then .ok (feasibility.2.1, collision.2 ++ feasibility.2.2)
      else
        let commit := moveSnake feasibility.2.1 candidateHead
        .ok (commit.1, collision.2 ++ feasibility.2.2 ++ commit.2)

/-- The direction-change handler of the spec (4.2): the current direction
becomes what `adjustDirection` returns for the request. -/
def directionChangeHandler (c : Controller) (requested : Direction) :
    Except Fault (Controller × List Notification) :=
  match adjustDirection c requested with
  | .error f => .error f
  | .ok d => .ok ({ c with m_currentDirection := d }, [])

/-- The unsolicited-food handler (4.7, first trigger), with the store of the
food position that `receive` performs after the placement. -/
def unsolicitedFoodHandler (c : Controller) (x y : Int) :
    Except Fault (Controller × List Notification) :=
  .ok ({ c with m_foodPosition := (x, y) },
    placeNewReceivedFood c (checkIfReceivedFoodCollidedWithSnake c (x, y)) (x, y))

/-- The requested-food handler (4.7, second trigger), with the store of the
food position that `receive` performs after the placement. -/
def requestedFoodHandler (c : Controller) (x y : Int) :
    Except Fault (Controller × List Notification) :=
  .ok ({ c with m_foodPosition := (x, y) },
    placeNewRequestedFood c (checkIfRequestedFoodCollidedWithSnake c (x, y)) (x, y))

/-- The dispatch of the spec (4.8): the kind of the event selects one handler,
and an event of no recognised kind is reported as unexpected. -/
def dispatch (c : Controller) (e : Event) : Except Fault (Controller × List Notification) :=
  match e with
  | .TimeoutInd => tickHandler c
  | .DirectionInd requested => directionChangeHandler c requested
  | .FoodInd x y => unsolicitedFoodHandler c x y
  | .FoodResp x y => requestedFoodHandler c x y
  | .other => .error Fault.UnexpectedEventException

/-- The configuration text with the characters `t1`, `t2`, `t3` where the
grammar has the tags `W`, `F`, `S`: the text "otherwise of the grammar's shape". -/
def taggedText (t1 t2 t3 : Char) (w h fx fy : Int) (d : Char) (coords : List (Int × Int)) :
    List Char :=
  t1 :: spaced ([renderInt w, renderInt h, [t2], renderInt fx, renderInt fy, [t3], [d],
    renderInt (coords.length : Int)] ++ segmentTokens coords)

/-- The event source: the events are handed to `receive` one after another,
each processed to completion before the next; what was sent is collected in
order, and a fault ends the run. -/
def receiveAll : Controller → List Event → Except Fault (Controller × List Notification)
  | c, [] => .ok (c, [])
  | c, e :: events =>
    match receive c e with
    | .error f => .error f
    | .ok r1 =>
      match receiveAll r1.1 events with
      | .error f => .error f
      | .ok r2 => .ok (r2.1, r1.2 ++ r2.2)

/-- The ttls that follow a segment of ttl `a` down the body: each is equal to
the one before it or one less, and the last one is 1. -/
def TtlSteps : Int → List Int → Prop
  | a, [] => a = 1
  | a, b :: rest => (b = a ∨ b = a - 1) ∧ TtlSteps b rest

/-- The body is not empty, its head has ttl `n`, and from head to tail the ttls
go down to 1 in steps of at most one. -/
def TtlChain (n : Int) (body : List Segment) : Prop :=
  match body with
  | [] => False
  | s :: rest => s.ttl = n ∧ TtlSteps n (rest.map Segment.ttl)

/-- No two segments of the body lie on the same cell. -/
def DistinctCells (body : List Segment) : Prop :=
  body.Pairwise (fun a b => ¬ (a.x = b.x ∧ a.y = b.y))

/-- The ttls do not increase from the head to the tail. -/
def TtlNonIncreasing (body : List Segment) : Prop :=
  body.Pairwise (fun a b => b.ttl ≤ a.ttl)

/-- The computed head of an ordinary tick: on no segment, not the food, in bounds. -/
def OrdinaryHead (c : Controller) (newHead : Segment) : Prop :=
  ¬ OnBody c.m_segments newHead.x newHead.y ∧
  (newHead.x, newHead.y) ≠ c.m_foodPosition ∧
  InBounds c newHead.x newHead.y

instance (body : List Segment) : Decidable (DistinctCells body) := by
  unfold DistinctCells
  infer_instance

instance (body : List Segment) : Decidable (TtlNonIncreasing body) := by
  unfold TtlNonIncreasing
  infer_instance

instance (c : Controller) (newHead : Segment) : Decidable (OrdinaryHead c newHead) := by
  unfold OrdinaryHead
  infer_instance

/-! ## States used as concrete inputs -/

/-- The text of the spec's scenario. -/
def scenarioText : List Char := "W 10 10 F 5 5 S U 3 1 1 2 1 3 1".toList

/-- The state of the spec's scenario `W 10 10 F 5 5 S U 3 1 1 2 1 3 1`. -/
def scenarioState : Controller :=
  { m_mapDimension := (10, 10), m_foodPosition := (5, 5), m_currentDirection := Direction.UP,
    m_segments := [⟨1, 1, 3⟩, ⟨2, 1, 2⟩, ⟨3, 1, 1⟩] }

/-- A snake on the top row heading up, with the food one cell above the map. -/
def foodOutsideState : Controller :=
  { m_mapDimension := (10, 10), m_foodPosition := (5, -1), m_currentDirection := Direction.UP,
    m_segments := [⟨5, 0, 1⟩] }

/-- The same snake on the top row, the food inside the map. -/
def topRowState : Controller :=
  { m_mapDimension := (10, 10), m_foodPosition := (5, 5), m_currentDirection := Direction.UP,
    m_segments := [⟨5, 0, 1⟩] }

/-- The scenario state with the food on the cell above the head. -/
def foodAheadState : Controller :=
  { scenarioState with m_foodPosition := (1, 0) }

/-- An L-shaped snake heading down into its own second segment's neighbour. -/
def coiledState : Controller :=
  { m_mapDimension := (10, 10), m_foodPosition := (5, 5), m_currentDirection := Direction.DOWN,
    m_segments := [⟨1, 1, 4⟩, ⟨2, 1, 3⟩, ⟨2, 2, 2⟩, ⟨1, 2, 1⟩] }

/-- The text of a three-segment snake heading up with the food on the cell
above its head. -/
def feedingText : List Char := "W 10 10 F 1 4 S U 3 1 5 2 5 3 5".toList

/-- The state constructed from `feedingText`. -/
def feedingState : Controller :=
  { m_mapDimension := (10, 10), m_foodPosition := (1, 4), m_currentDirection := Direction.UP,
    m_segments := [⟨1, 5, 3⟩, ⟨2, 5, 2⟩, ⟨3, 5, 1⟩] }

/-- A run from `feedingState`: the tick that eats the food, the answer to the
food request, and two more ticks. -/
def feedingRun : List Event :=
  [Event.TimeoutInd, Event.FoodResp 7 7, Event.TimeoutInd, Event.TimeoutInd]

/-- What `feedingRun` sends. -/
def feedingSent : List Notification :=
  [Notification.ScoreInd, Notification.FoodReq, Notification.DisplayInd 1 4 Cell.SNAKE,
   Notification.DisplayInd 7 7 Cell.FOOD,
   Notification.DisplayInd 3 5 Cell.FREE, Notification.DisplayInd 1 3 Cell.SNAKE,
   Notification.DisplayInd 2 5 Cell.FREE, Notification.DisplayInd 1 2 Cell.SNAKE]

/-- The state after `feedingRun`: four segments, two of them with ttl 1. -/
def grownState : Controller :=
  { m_mapDimension := (10, 10), m_foodPosition := (7, 7), m_currentDirection := Direction.UP,
    m_segments := [⟨1, 2, 3⟩, ⟨1, 3, 2⟩, ⟨1, 4, 1⟩, ⟨1, 5, 1⟩] }

/-- The state one tick after `grownState`: three segments again. -/
def shrunkState : Controller :=
  { m_mapDimension := (10, 10), m_foodPosition := (7, 7), m_currentDirection := Direction.UP,
    m_segments := [⟨1, 1, 3⟩, ⟨1, 2, 2⟩, ⟨1, 3, 1⟩] }

/-! ## Lemmas about the helper loops -/

theorem collides_eq_true_iff (body : List Segment) (x y : Int) :
    collides body x y = true ↔ OnBody body x y := by
  induction body with
  | nil => simp [collides, OnBody]
  | cons s rest ih =>
    unfold collides
    by_cases h : s.x = x ∧ s.y = y
    · simp only [h, and_self, if_true, true_iff]
      exact ⟨s, List.mem_cons_self _ _, h⟩
    · rw [if_neg h, ih]
      constructor
      · rintro ⟨t, ht, hxy⟩
        exact ⟨t, List.mem_cons_of_mem _ ht, hxy⟩
      · rintro ⟨t, ht, hxy⟩
        rcases List.mem_cons.mp ht with rfl | ht
        · exact absurd hxy h
        · exact ⟨t, ht, hxy⟩

theorem collides_eq_false_iff (body : List Segment) (x y : Int) :
    collides body x y = false ↔ ¬ OnBody body x y := by
  rw [← collides_eq_true_iff]
  cases collides body x y <;> simp

theorem decaySegments_fst (body : List Segment) :
    (decaySegments body).1 = body.map Segment.decremented := by
  induction body with
  | nil => rfl
  | cons s rest ih => simp [decaySegments, ih, Segment.decremented]

theorem decaySegments_snd (body : List Segment) :
    (decaySegments body).2 =
      (body.filter (fun s => decide (s.ttl - 1 = 0))).map
        (fun s => Notification.DisplayInd s.x s.y Cell.FREE) := by
  induction body with
  | nil => rfl
  | cons s rest ih =>
    by_cases h : s.ttl - 1 = 0
    · simp [decaySegments, ih, h]
    · simp [decaySegments, ih, h]

theorem filter_positive_of_all_positive (body : List Segment)
    (h : ∀ s ∈ body, 0 < s.ttl) :
    body.filter (fun segment => decide (segment.ttl > 0)) = body := by
  rw [List.filter_eq_self]
  intro s hs
  simpa using h s hs

theorem makeHead_ok_of_ne_nil (c : Controller) (h : c.m_segments ≠ []) :
    ∃ newHead, makeHead c = Except.ok newHead := by
  unfold makeHead
  cases hb : c.m_segments with
  | nil => exact absurd hb h
  | cons s rest => exact ⟨_, rfl⟩

theorem makeHead_ttl (c : Controller) (newHead : Segment)
    (h : makeHead c = Except.ok newHead) :
    ∃ currentHead rest, c.m_segments = currentHead :: rest ∧ newHead.ttl = currentHead.ttl := by
  unfold makeHead at h
  cases hb : c.m_segments with
  | nil => rw [hb] at h; cases h
  | cons s rest =>
    rw [hb] at h
    injection h with h
    exact ⟨s, rest, rfl, by rw [← h]⟩

/-! ## Tick events -/

/-- The ordinary tick of any state whose head has a positive ttl: the body
becomes `ordinaryTickBody`, what is sent is `ordinaryTickSent`. -/
theorem ordinary_tick_of_live_head (c : Controller) (newHead : Segment)
    (hhead : makeHead c = Except.ok newHead)
    (httl : 0 < newHead.ttl)
    (hbody : ¬ OnBody c.m_segments newHead.x newHead.y)
    (hfood : (newHead.x, newHead.y) ≠ c.m_foodPosition)
    (hin : InBounds c newHead.x newHead.y) :
    receive c Event.TimeoutInd =
      Except.ok ({ c with m_segments := ordinaryTickBody newHead c.m_segments },
        ordinaryTickSent newHead c.m_segments) := by
  have hcol : collides c.m_segments newHead.x newHead.y = false :=
    (collides_eq_false_iff _ _ _).mpr hbody
  obtain ⟨hx0, hx1, hy0, hy1⟩ := hin
  have hout : ¬ (newHead.x < 0 ∨ newHead.y < 0 ∨ newHead.x ≥ c.m_mapDimension.1 ∨
      newHead.y ≥ c.m_mapDimension.2) := by omega
  simp only [receive, hhead, checkIfNewHeadCollidesWithBody, hcol, checkIfSnakeCanBeMoved,
    if_neg hfood, if_neg hout, moveSnake, decaySegments_fst, decaySegments_snd,
    ordinaryTickBody, ordinaryTickSent]
  simp [List.filter_cons, httl]

/-- C2: when every segment has a positive ttl and the computed head is the food
position and lies on no segment, a tick emits exactly score, food-request and
display SNAKE at the head, and the body becomes the new head followed by the
old body untouched, one segment longer. -/
theorem receive_tick_food (c : Controller) (newHead : Segment)
    (hhead : makeHead c = Except.ok newHead)
    (hpos : ∀ s ∈ c.m_segments, 0 < s.ttl)
    (hfood : (newHead.x, newHead.y) = c.m_foodPosition)
    (hbody : ¬ OnBody c.m_segments newHead.x newHead.y) :
    receive c Event.TimeoutInd =
      Except.ok ({ c with m_segments := newHead :: c.m_segments },
        [Notification.ScoreInd, Notification.FoodReq,
         Notification.DisplayInd newHead.x newHead.y Cell.SNAKE]) ∧
    (newHead :: c.m_segments).length = c.m_segments.length + 1 := by
  have hcol : collides c.m_segments newHead.x newHead.y = false :=
    (collides_eq_false_iff _ _ _).mpr hbody
  obtain ⟨cur, rest, hcur, hcurttl⟩ := makeHead_ttl c newHead hhead
  have hall : ∀ s ∈ newHead :: c.m_segments, 0 < s.ttl := by
    intro s hs
    rcases List.mem_cons.mp hs with rfl | hs
    · rw [hcurttl]
      exact hpos cur (by rw [hcur]; exact List.mem_cons_self _ _)
    · exact hpos s hs
  refine ⟨?_, by simp⟩
  simp only [receive, hhead, checkIfNewHeadCollidesWithBody, hcol, checkIfSnakeCanBeMoved,
    if_pos hfood, moveSnake, filter_positive_of_all_positive _ hall]
  simp

/-- The food tick of `foodAheadState`: the body grows from three to four segments. -/
theorem receive_tick_food_witness :
    receive foodAheadState Event.TimeoutInd =
      Except.ok ({ foodAheadState with
                    m_segments := [⟨1, 0, 3⟩, ⟨1, 1, 3⟩, ⟨2, 1, 2⟩, ⟨3, 1, 1⟩] },
        [Notification.ScoreInd, Notification.FoodReq, Notification.DisplayInd 1 0 Cell.SNAKE]) :=
  (receive_tick_food foodAheadState ⟨1, 0, 3⟩ rfl (by decide) rfl
(by decide)).1

/-- C3: when the computed head lies on some segment of the body (the tail
included), a tick emits exactly one loss notification and leaves the whole
state, hence body, direction and food position, unchanged. -/
theorem receive_tick_self_collision (c : Controller) (newHead : Segment)
    (hhead : makeHead c = Except.ok newHead)
    (hbody : OnBody c.m_segments newHead.x newHead.y) :
    receive c Event.TimeoutInd = Except.ok (c, [Notification.LooseInd]) := by
  have hcol : collides c.m_segments newHead.x newHead.y = true :=
    (collides_eq_true_iff _ _ _).mpr hbody
  simp [receive, hhead, checkIfNewHeadCollidesWithBody, hcol]

/-- The coiled snake runs into its own tail segment `(1,2)`. -/
theorem receive_tick_self_collision_witness :
    OnBody coiledState.m_segments 1 2 ∧
    receive coiledState Event.TimeoutInd = Except.ok (coiledState, [Notification.LooseInd]) :=
  ⟨⟨⟨1, 2, 1⟩, by decide, rfl, rfl⟩,
   receive_tick_self_collision coiledState ⟨1, 2, 4⟩ rfl ⟨⟨1, 2, 1⟩, by decide, rfl, rfl⟩⟩

/-- C4, as stated, fails: in `foodOutsideState`, the state constructed from
`W 10 10 F 5 -1 S U 1 5 0`, the computed head `(5,-1)` has `y < 0`, but it is
the food position, and the food test comes first: the tick emits score,
food-request and display SNAKE, no loss, and the body grows. -/
theorem out_of_bounds_tick_on_food_moves :
    Controller.Controller "W 10 10 F 5 -1 S U 1 5 0".toList = Except.ok foodOutsideState ∧
    foodOutsideState.m_segments ≠ [] ∧
    makeHead foodOutsideState = Except.ok ⟨5, -1, 1⟩ ∧
    ((-1 : Int) < 0) ∧
    receive foodOutsideState Event.TimeoutInd =
      Except.ok ({ foodOutsideState with m_segments := [⟨5, -1, 1⟩, ⟨5, 0, 1⟩] },
        [Notification.ScoreInd, Notification.FoodReq,
         Notification.DisplayInd 5 (-1) Cell.SNAKE]) ∧
    Notification.LooseInd ∉
      [Notification.ScoreInd, Notification.FoodReq, Notification.DisplayInd 5 (-1) Cell.SNAKE] ∧
    ({ foodOutsideState with m_segments := [⟨5, -1, 1⟩, ⟨5, 0, 1⟩] } : Controller).m_segments ≠
      foodOutsideState.m_segments := by
  decide

/-- C4 (amended): when the computed head is out of `[0,width) x [0,height)`
and is not the food position, a tick emits a loss notification, the only
notification of that tick (so no display SNAKE), and commits no movement: the
state is unchanged. -/
theorem receive_tick_out_of_bounds (c : Controller) (newHead : Segment)
    (hhead : makeHead c = Except.ok newHead)
    (hout : newHead.x < 0 ∨ newHead.y < 0 ∨ newHead.x ≥ c.m_mapDimension.1 ∨
      newHead.y ≥ c.m_mapDimension.2)
    (hfood : (newHead.x, newHead.y) ≠ c.m_foodPosition) :
    receive c Event.TimeoutInd = Except.ok (c, [Notification.LooseInd]) := by
  cases hcol : collides c.m_segments newHead.x newHead.y with
  | true => simp [receive, hhead, checkIfNewHeadCollidesWithBody, hcol]
  | false =>
    simp only [receive, hhead, checkIfNewHeadCollidesWithBody, hcol, checkIfSnakeCanBeMoved,
      if_neg hfood, if_pos hout]
    simp

/-- The snake on the top row, the food elsewhere, runs off the map. -/
theorem receive_tick_out_of_bounds_witness :
    receive topRowState Event.TimeoutInd = Except.ok (topRowState, [Notification.LooseInd]) :=
  receive_tick_out_of_bounds topRowState ⟨5, -1, 1⟩ (by decide) (by decide) (by decide)

/-! ## Food placement events -/

/-- C5, as stated, fails: the proposed cell `(2,1)` is on the body of
`scenarioState`, and after `receive` the stored food position is `(2,1)`, not
the old `(5,5)`: both handlers assign `m_foodPosition` after the placement
call, whatever the collision test said. -/
theorem rejected_food_overwrites_position :
    Controller.Controller "W 10 10 F 5 5 S U 3 1 1 2 1 3 1".toList = Except.ok scenarioState ∧
    OnBody scenarioState.m_segments 2 1 ∧
    receive scenarioState (Event.FoodInd 2 1) =
      Except.ok ({ m_mapDimension := (10, 10), m_foodPosition := (2, 1),
                   m_currentDirection := Direction.UP,
                   m_segments := [⟨1, 1, 3⟩, ⟨2, 1, 2⟩, ⟨3, 1, 1⟩] },
        [Notification.FoodReq]) ∧
    receive scenarioState (Event.FoodResp 2 1) =
      Except.ok ({ m_mapDimension := (10, 10), m_foodPosition := (2, 1),
                   m_currentDirection := Direction.UP,
                   m_segments := [⟨1, 1, 3⟩, ⟨2, 1, 2⟩, ⟨3, 1, 1⟩] },
        [Notification.FoodReq]) ∧
    ((2, 1) : Int × Int) ≠ scenarioState.m_foodPosition := by
  decide

/-- C5 (amended): a food-placement event of either kind whose proposed cell is
on the body emits exactly one food-request notification and nothing else,
leaves body, direction and map dimensions unchanged, and stores the proposed
cell as the food position. -/
theorem receive_food_on_body (c : Controller) (x y : Int)
    (hbody : OnBody c.m_segments x y) :
    receive c (Event.FoodInd x y) =
      Except.ok ({ c with m_foodPosition := (x, y) }, [Notification.FoodReq]) ∧
    receive c (Event.FoodResp x y) =
      Except.ok ({ c with m_foodPosition := (x, y) }, [Notification.FoodReq]) := by
  have hcol : collides c.m_segments x y = true := (collides_eq_true_iff _ _ _).mpr hbody
  simp [receive, checkIfReceivedFoodCollidedWithSnake, checkIfRequestedFoodCollidedWithSnake,
    placeNewReceivedFood, placeNewRequestedFood, hcol]

/-- Food proposed on the tail cell `(3,1)` of the scenario's snake. -/
theorem receive_food_on_body_witness :
    OnBody scenarioState.m_segments 3 1 ∧
    receive scenarioState (Event.FoodInd 3 1) =
      Except.ok ({ scenarioState with m_foodPosition := (3, 1) }, [Notification.FoodReq]) ∧
    receive scenarioState (Event.FoodResp 3 1) =
      Except.ok ({ scenarioState with m_foodPosition := (3, 1) }, [Notification.FoodReq]) :=
  ⟨by decide, receive_food_on_body scenarioState 3 1 (by decide)⟩

/-- C6: an unsolicited-food event whose cell `(x, y)` is on no body segment
emits exactly display FREE at the old food position then display FOOD at
`(x, y)`, stores `(x, y)` as food position and changes nothing else. -/
theorem receive_unsolicited_food_accepted (c : Controller) (x y : Int)
    (hbody : ¬ OnBody c.m_segments x y) :
    receive c (Event.FoodInd x y) =
      Except.ok ({ c with m_foodPosition := (x, y) },
        [Notification.DisplayInd c.m_foodPosition.1 c.m_foodPosition.2 Cell.FREE,
         Notification.DisplayInd x y Cell.FOOD]) := by
  have hcol : collides c.m_segments x y = false := (collides_eq_false_iff _ _ _).mpr hbody
  simp [receive, checkIfReceivedFoodCollidedWithSnake, placeNewReceivedFood, hcol]

/-- Unsolicited food at the free cell `(7,8)` of the scenario. -/
theorem receive_unsolicited_food_accepted_witness :
    receive scenarioState (Event.FoodInd 7 8) =
      Except.ok ({ scenarioState with m_foodPosition := (7, 8) },
        [Notification.DisplayInd 5 5 Cell.FREE, Notification.DisplayInd 7 8 Cell.FOOD]) :=
  receive_unsolicited_food_accepted scenarioState 7 8 (by decide)

/-- C7: a requested-food response whose cell `(x, y)` is on no body segment
emits exactly one notification, display FOOD at `(x, y)` (no display FREE),
stores `(x, y)` as food position and changes nothing else. -/
theorem receive_requested_food_accepted (c : Controller) (x y : Int)
    (hbody : ¬ OnBody c.m_segments x y) :
    receive c (Event.FoodResp x y) =
      Except.ok ({ c with m_foodPosition := (x, y) },
        [Notification.DisplayInd x y Cell.FOOD]) := by
  have hcol : collides c.m_segments x y = false := (collides_eq_false_iff _ _ _).mpr hbody
  simp [receive, checkIfRequestedFoodCollidedWithSnake, placeNewRequestedFood, hcol]

/-- Requested food at the free cell `(7,8)` of the scenario. -/
theorem receive_requested_food_accepted_witness :
    receive scenarioState (Event.FoodResp 7 8) =
      Except.ok ({ scenarioState with m_foodPosition := (7, 8) },
        [Notification.DisplayInd 7 8 Cell.FOOD]) :=
  receive_requested_food_accepted scenarioState 7 8 (by decide)

/-! ## Direction events -/

/-- C8 at its failing input: with current direction UP and request DOWN the
axis bits agree, `adjustDirection` reaches its end without a `return`, so no
value (in particular not UP) is returned, and the direction-change event
assigns that missing value to the current direction. -/
theorem adjustDirection_same_axis_returns_nothing :
    Controller.Controller "W 10 10 F 5 5 S U 3 1 1 2 1 3 1".toList = Except.ok scenarioState ∧
    scenarioState.m_currentDirection = Direction.UP ∧
    Direction.axisBit Direction.UP = Direction.axisBit Direction.DOWN ∧
    adjustDirection scenarioState Direction.DOWN = Except.error Fault.undefinedBehaviour ∧
    adjustDirection scenarioState Direction.DOWN ≠ Except.ok Direction.UP ∧
    receive scenarioState (Event.DirectionInd Direction.DOWN) =
      Except.error Fault.undefinedBehaviour := by
  decide

/-- C9: a requested direction `r` whose axis bit differs from the current
direction's is returned by `adjustDirection`, and the direction-change event
makes it the current direction, leaving body, food position and map
dimensions unchanged and sending nothing. -/
theorem receive_direction_perpendicular (c : Controller) (r : Direction)
    (haxis : r.axisBit ≠ c.m_currentDirection.axisBit) :
    adjustDirection c r = Except.ok r ∧
    receive c (Event.DirectionInd r) = Except.ok ({ c with m_currentDirection := r }, []) := by
  have h : (c.m_currentDirection.code &&& 0b01) ≠ (r.code &&& 0b01) := fun e => haxis e.symm
  have hadj : adjustDirection c r = Except.ok r := by
    unfold adjustDirection
    rw [if_pos h]
  exact ⟨hadj, by simp [receive, hadj]⟩

/-- Current direction UP, request LEFT: the direction becomes LEFT. -/
theorem receive_direction_perpendicular_witness :
    adjustDirection scenarioState Direction.LEFT = Except.ok Direction.LEFT ∧
    receive scenarioState (Event.DirectionInd Direction.LEFT) =
      Except.ok ({ scenarioState with m_currentDirection := Direction.LEFT }, []) :=
  receive_direction_perpendicular scenarioState Direction.LEFT (by decide)

/-! ## The configuration text -/

theorem digitChar_isdigit (d : Nat) (h : d < 10) : isdigit (Nat.digitChar d) = true := by
  interval_cases d <;> rfl

theorem digitChar_value (d : Nat) (h : d < 10) : (Nat.digitChar d).toNat - '0'.toNat = d := by
  interval_cases d <;> rfl

theorem toDigitsCore_append (fuel : Nat) : ∀ (n : Nat) (acc : List Char),
    Nat.toDigitsCore 10 fuel n acc = Nat.toDigitsCore 10 fuel n [] ++ acc := by
  induction fuel with
  | zero => intro n acc; simp [Nat.toDigitsCore]
  | succ fuel ih =>
    intro n acc
    simp only [Nat.toDigitsCore]
    by_cases h : n / 10 = 0
    · simp [h]
    · rw [if_neg h, if_neg h, ih (n / 10) (_ :: acc), ih (n / 10) [_]]
      simp

theorem toDigitsCore_spec (fuel : Nat) : ∀ n : Nat, n < fuel →
    Nat.toDigitsCore 10 fuel n [] ≠ [] ∧
    (∀ ch ∈ Nat.toDigitsCore 10 fuel n [], isdigit ch = true) ∧
    digitsValue (Nat.toDigitsCore 10 fuel n []) = n := by
  induction fuel with
  | zero => intro n h; omega
  | succ fuel ih =>
    intro n hn
    have hd : n % 10 < 10 := Nat.mod_lt _ (by decide)
    simp only [Nat.toDigitsCore]
    by_cases h : n / 10 = 0
    · rw [if_pos h]
      refine ⟨by simp, ?_, ?_⟩
      · intro ch hch
        rw [List.mem_singleton] at hch
        rw [hch]; exact digitChar_isdigit _ hd
      · simp only [digitsValue, List.foldl]
        rw [digitChar_value _ hd]
        omega
    · rw [if_neg h, toDigitsCore_append]
      have hlt : n / 10 < fuel := by omega
      obtain ⟨h1, h2, h3⟩ := ih (n / 10) hlt
      refine ⟨by simp, ?_, ?_⟩
      · intro ch hch
        rcases List.mem_append.mp hch with hch | hch
        · exact h2 ch hch
        · rw [List.mem_singleton] at hch
          rw [hch]; exact digitChar_isdigit _ hd
      · unfold digitsValue at h3 ⊢
        rw [List.foldl_append, h3]
        simp only [List.foldl]
        rw [digitChar_value _ hd]
        omega

/-- The decimal numeral of a natural number is a non-empty run of digits whose
value is the number. -/
theorem toDigits_spec (n : Nat) :
    Nat.toDigits 10 n ≠ [] ∧ (∀ ch ∈ Nat.toDigits 10 n, isdigit ch = true) ∧
    digitsValue (Nat.toDigits 10 n) = n :=
  toDigitsCore_spec (n + 1) n (Nat.lt_succ_self n)

theorem endsNumeral_spaced (tokens : List (List Char)) : EndsNumeral (spaced tokens) := by
  cases tokens with
  | nil => intro ch hch; simp [spaced] at hch
  | cons t ts =>
    intro ch hch
    simp only [spaced, List.head?_cons, Option.mem_def, Option.some.injEq] at hch
    rw [← hch]; rfl

theorem takeWhile_digits (digits rest : List Char)
    (hd : ∀ ch ∈ digits, isdigit ch = true) (hr : EndsNumeral rest) :
    (digits ++ rest).takeWhile isdigit = digits ∧ (digits ++ rest).dropWhile isdigit = rest := by
  induction digits with
  | nil =>
    cases rest with
    | nil => simp
    | cons ch tl =>
      have h : isdigit ch = false := hr ch (by simp)
      simp [List.takeWhile, List.dropWhile, h]
  | cons ch tl ih =>
    have h : isdigit ch = true := hd ch (List.mem_cons_self _ _)
    have ih2 := ih (fun c hc => hd c (List.mem_cons_of_mem _ hc))
    simp [List.takeWhile, List.dropWhile, h, ih2.1, ih2.2]

theorem isdigit_not_isspace (ch : Char) (h : isdigit ch = true) : isspace ch = false := by
  simp only [isdigit, Bool.and_eq_true, decide_eq_true_eq] at h
  have h48 : (48 : Nat) ≤ ch.toNat := h.1
  have hne : ch ≠ ' ' := by
    intro e
    rw [e] at h48
    revert h48
    decide
  simp only [isspace, Bool.or_eq_false_iff, Bool.and_eq_false_iff, decide_eq_false_iff_not]
  exact ⟨hne, Or.inr (by omega)⟩

theorem isdigit_not_sign (ch : Char) (h : isdigit ch = true) : ¬ (ch = '-' ∨ ch = '+') := by
  simp only [isdigit, Bool.and_eq_true, decide_eq_true_eq] at h
  have h48 : (48 : Nat) ≤ ch.toNat := h.1
  rintro (e | e) <;> · rw [e] at h48; revert h48; decide

theorem skipWhitespace_space_cons (ch : Char) (hch : isspace ch = false) (rest : List Char) :
    skipWhitespace (' ' :: ch :: rest) = ch :: rest := by
  have hs : isspace ' ' = true := rfl
  unfold skipWhitespace
  rw [List.dropWhile_cons, if_pos hs, List.dropWhile_cons, if_neg (by simp [hch])]

/-- Extraction of an `int` from a space, the numeral of a value of `int` and
a continuation that does not start with a digit: the value is stored, the
stream stays good and stands at the continuation. -/
theorem extractInt_renderInt (v : Int) (hv : IsInt v) (rest : List Char) (hr : EndsNumeral rest)
    (var : Option Int) :
    IStringStream.extractInt { buffer := ' ' :: (renderInt v ++ rest), failbit := false } var =
      ({ buffer := rest, failbit := false }, some v) := by
  obtain ⟨hne, hdig, hval⟩ := toDigits_spec v.natAbs
  obtain ⟨htake, hdrop⟩ := takeWhile_digits _ rest hdig hr
  obtain ⟨hmin, hmax⟩ := hv
  have h1 : ¬ v < INT_MIN := not_lt.mpr hmin
  have h2 : ¬ v > INT_MAX := not_lt.mpr hmax
  unfold INT_MIN at hmin
  unfold INT_MAX at hmax
  by_cases hneg : v < 0
  · have hskip : skipWhitespace (' ' :: (renderInt v ++ rest)) =
        '-' :: (Nat.toDigits 10 v.natAbs ++ rest) := by
      have e : renderInt v ++ rest = '-' :: (Nat.toDigits 10 v.natAbs ++ rest) := by
        simp [renderInt, hneg]
      rw [e]
      exact skipWhitespace_space_cons '-' rfl _
    have hv' : -((v.natAbs : Nat) : Int) = v := by omega
    simp only [IStringStream.extractInt, hskip, true_or, if_true, htake, hdrop, hval, hv',
      if_neg hne, if_neg h1, if_neg h2, Bool.false_eq_true, if_false]
  · obtain ⟨d0, tl, htl⟩ := List.exists_cons_of_ne_nil hne
    have hd0 : isdigit d0 = true := hdig d0 (by rw [htl]; exact List.mem_cons_self _ _)
    have hsp : isspace d0 = false := isdigit_not_isspace d0 hd0
    have hsign : ¬ (d0 = '-' ∨ d0 = '+') := isdigit_not_sign d0 hd0
    have hminus : ¬ d0 = '-' := fun e => hsign (Or.inl e)
    have hskip : skipWhitespace (' ' :: (renderInt v ++ rest)) = d0 :: (tl ++ rest) := by
      have e : renderInt v ++ rest = d0 :: (tl ++ rest) := by
        simp [renderInt, hneg, htl]
      rw [e]
      exact skipWhitespace_space_cons d0 hsp _
    have hv' : ((v.natAbs : Nat) : Int) = v := by omega
    rw [htl] at htake hdrop hval hne
    simp only [List.cons_append] at htake hdrop
    simp only [IStringStream.extractInt, hskip, if_neg hsign, if_neg hminus, htake, hdrop, hval,
      hv', if_neg hne, if_neg h1, if_neg h2, Bool.false_eq_true, if_false]

/-- Extraction of a `char` from a space and a character that is not whitespace. -/
theorem extractChar_spaced (ch : Char) (hch : isspace ch = false) (rest : List Char)
    (var : Option Char) :
    IStringStream.extractChar { buffer := ' ' :: ch :: rest, failbit := false } var =
      ({ buffer := rest, failbit := false }, some ch) := by
  simp [IStringStream.extractChar, skipWhitespace_space_cons ch hch]

theorem extractInt_spaced (v : Int) (hv : IsInt v) (tokens : List (List Char))
    (var : Option Int) :
    IStringStream.extractInt { buffer := spaced (renderInt v :: tokens), failbit := false } var =
      ({ buffer := spaced tokens, failbit := false }, some v) :=
  extractInt_renderInt v hv (spaced tokens) (endsNumeral_spaced tokens) var

theorem extractChar_spaced_token (ch : Char) (hch : isspace ch = false)
    (tokens : List (List Char)) (var : Option Char) :
    IStringStream.extractChar { buffer := spaced ([ch] :: tokens), failbit := false } var =
      ({ buffer := spaced tokens, failbit := false }, some ch) :=
  extractChar_spaced ch hch (spaced tokens) var

theorem extractChar_first (ch : Char) (hch : isspace ch = false) (rest : List Char)
    (var : Option Char) :
    IStringStream.extractChar { buffer := ch :: rest, failbit := false } var =
      ({ buffer := rest, failbit := false }, some ch) := by
  have hskip : skipWhitespace (ch :: rest) = ch :: rest := by
    unfold skipWhitespace
    rw [List.dropWhile_cons, if_neg (by simp [hch])]
  simp [IStringStream.extractChar, hskip]

theorem letter_not_isspace (direction : Direction) : isspace direction.letter = false := by
  cases direction <;> rfl

theorem checkDirection_letter (direction : Direction) :
    checkDirection direction.letter = Except.ok direction := by
  cases direction <;> rfl

/-- The loop of the constructor reads the rendered coordinate pairs into the
body with ttls counting down from their number to one. -/
theorem readSegments_segmentTokens : ∀ coords : List (Int × Int),
    (∀ p ∈ coords, IsInt p.1 ∧ IsInt p.2) →
    readSegments coords.length { buffer := spaced (segmentTokens coords), failbit := false } =
      Except.ok (initialBody coords) := by
  intro coords
  induction coords with
  | nil => intro _; rfl
  | cons p rest ih =>
    intro h
    have hp := h p (List.mem_cons_self _ _)
    have hrest := ih (fun q hq => h q (List.mem_cons_of_mem _ hq))
    simp only [List.length_cons, readSegments, segmentTokens, extractInt_spaced _ hp.1,
      extractInt_spaced _ hp.2, readVariable, hrest, initialBody]

theorem initialBody_length (coords : List (Int × Int)) :
    (initialBody coords).length = coords.length := by
  induction coords with
  | nil => rfl
  | cons p rest ih => simp [initialBody, ih]

theorem initialBody_getElem_opt : ∀ (coords : List (Int × Int)) (i : Nat),
    (initialBody coords)[i]? =
      (coords[i]?).map (fun p => { x := p.1, y := p.2, ttl := (coords.length : Int) - (i : Int) }) := by
  intro coords
  induction coords with
  | nil => intro i; simp [initialBody]
  | cons p rest ih =>
    intro i
    cases i with
    | zero => simp [initialBody]
    | succ i =>
      simp only [initialBody, List.getElem?_cons_succ, ih i, List.length_cons]
      cases rest[i]? with
      | none => rfl
      | some q =>
        simp only [Option.map_some', Option.some.injEq, Segment.mk.injEq, true_and]
        push_cast
        ring

/-- C10: for every text `W w h F fx fy S d n x1 y1 ... xn yn` whose numerals
denote values of `int`, with `d` the letter of a direction and `n >= 0` the
number of coordinate pairs, construction succeeds with map dimensions
`(w, h)`, food `(fx, fy)`, the direction named by `d`, and a body of exactly
`n` segments in the order read, the one at 0-based position `i` being
`(x, y)` of the pair at that position with ttl `n - i` (first `n`, last 1). -/
theorem Controller_of_configText (w h fx fy : Int) (direction : Direction)
    (coords : List (Int × Int))
    (hw : IsInt w) (hh : IsInt h) (hfx : IsInt fx) (hfy : IsInt fy)
    (hn : IsInt (coords.length : Int))
    (hcoords : ∀ p ∈ coords, IsInt p.1 ∧ IsInt p.2) :
    Controller.Controller (configText w h fx fy direction.letter coords) =
      Except.ok { m_mapDimension := (w, h), m_foodPosition := (fx, fy),
                  m_currentDirection := direction, m_segments := initialBody coords } ∧
    (initialBody coords).length = coords.length ∧
    ∀ i : Nat, (initialBody coords)[i]? =
      (coords[i]?).map
        (fun p => { x := p.1, y := p.2, ttl := (coords.length : Int) - (i : Int) }) := by
  refine ⟨?_, initialBody_length coords, initialBody_getElem_opt coords⟩
  have hlen : ¬ ((coords.length : Nat) : Int) < 0 := by omega
  simp only [Controller.Controller, configText, List.cons_append, List.nil_append,
    extractChar_first 'W' rfl, extractInt_spaced _ hw, extractInt_spaced _ hh,
    extractChar_spaced_token 'F' rfl, extractInt_spaced _ hfx, extractInt_spaced _ hfy,
    extractChar_spaced_token 'S' rfl, extractChar_spaced_token _ (letter_not_isspace direction),
    extractInt_spaced _ hn, tagsMatch, readVariable, checkDirection_letter, if_true,
    decide_True, if_neg hlen, Int.toNat_ofNat, readSegments_segmentTokens coords hcoords]

/-- The scenario of the spec: `W 10 10 F 5 5 S U 3 1 1 2 1 3 1` gives a 10x10
map, food `(5,5)`, direction UP and body `(1,1,3),(2,1,2),(3,1,1)`. -/
theorem Controller_of_configText_witness :
    Controller.Controller "W 10 10 F 5 5 S U 3 1 1 2 1 3 1".toList =
      Except.ok { m_mapDimension := (10, 10), m_foodPosition := (5, 5),
                  m_currentDirection := Direction.UP,
                  m_segments := [⟨1, 1, 3⟩, ⟨2, 1, 2⟩, ⟨3, 1, 1⟩] } :=
  (Controller_of_configText 10 10 5 5 Direction.UP [(1, 1), (2, 1), (3, 1)]
    (by decide) (by decide) (by decide) (by decide) (by decide) (by decide)).1

/-! ## Dispatch and head computation -/

theorem makeHead_error (c : Controller) (f : Fault) (h : makeHead c = Except.error f) :
    f = Fault.undefinedBehaviour := by
  unfold makeHead at h
  split at h
  · injection h with h; exact h.symm
  · cases h

theorem adjustDirection_error (c : Controller) (d : Direction) (f : Fault)
    (h : adjustDirection c d = Except.error f) : f = Fault.undefinedBehaviour := by
  unfold adjustDirection at h
  split at h
  · cases h
  · injection h with h; exact h.symm

/-- C13: with head `(x, y, t)`, `makeHead` returns `(x, y-1, t)` for UP,
`(x, y+1, t)` for DOWN, `(x-1, y, t)` for LEFT and `(x+1, y, t)` for RIGHT;
it is a function of the state and returns only the new segment. -/
theorem makeHead_projection (c : Controller) (currentHead : Segment) (rest : List Segment)
    (hbody : c.m_segments = currentHead :: rest) :
    makeHead c = Except.ok
      (match c.m_currentDirection with
       | Direction.UP => ⟨currentHead.x, currentHead.y - 1, currentHead.ttl⟩
       | Direction.DOWN => ⟨currentHead.x, currentHead.y + 1, currentHead.ttl⟩
       | Direction.LEFT => ⟨currentHead.x - 1, currentHead.y, currentHead.ttl⟩
       | Direction.RIGHT => ⟨currentHead.x + 1, currentHead.y, currentHead.ttl⟩) := by
  unfold makeHead
  rw [hbody]
  cases c.m_currentDirection <;> simp [Direction.code] <;> rfl

/-- The four directions from the head `(1,1,3)` of the scenario. -/
theorem makeHead_projection_witness :
    makeHead scenarioState = Except.ok ⟨1, 0, 3⟩ ∧
    makeHead { scenarioState with m_currentDirection := Direction.DOWN } = Except.ok ⟨1, 2, 3⟩ ∧
    makeHead { scenarioState with m_currentDirection := Direction.LEFT } = Except.ok ⟨0, 1, 3⟩ ∧
    makeHead { scenarioState with m_currentDirection := Direction.RIGHT } = Except.ok ⟨2, 1, 3⟩ :=
  ⟨makeHead_projection scenarioState ⟨1, 1, 3⟩ _ rfl,
   makeHead_projection { scenarioState with m_currentDirection := Direction.DOWN } ⟨1, 1, 3⟩ _ rfl,
   makeHead_projection { scenarioState with m_currentDirection := Direction.LEFT } ⟨1, 1, 3⟩ _ rfl,
   makeHead_projection { scenarioState with m_currentDirection := Direction.RIGHT } ⟨1, 1, 3⟩ _ rfl⟩

/-! ## Configuration errors -/

/-- The constructor on a text of the grammar's shape: the tags decide first,
then the direction letter; the numerals never do. -/
theorem Controller_of_taggedText (t1 t2 t3 d : Char) (w h fx fy : Int)
    (coords : List (Int × Int))
    (ht1 : isspace t1 = false) (ht2 : isspace t2 = false) (ht3 : isspace t3 = false)
    (hd : isspace d = false)
    (hw : IsInt w) (hh : IsInt h) (hfx : IsInt fx) (hfy : IsInt fy)
    (hn : IsInt (coords.length : Int))
    (hcoords : ∀ p ∈ coords, IsInt p.1 ∧ IsInt p.2) :
    Controller.Controller (taggedText t1 t2 t3 w h fx fy d coords) =
      if t1 = 'W' ∧ t2 = 'F' ∧ t3 = 'S' then
        match checkDirection d with
        | .error e => .error e
        | .ok direction =>
          .ok { m_mapDimension := (w, h), m_foodPosition := (fx, fy),
                m_currentDirection := direction, m_segments := initialBody coords }
      else .error Fault.ConfigurationError := by
  have hlen : ¬ ((coords.length : Nat) : Int) < 0 := by omega
  simp only [Controller.Controller, taggedText, List.cons_append, List.nil_append,
    extractChar_first t1 ht1, extractInt_spaced _ hw, extractInt_spaced _ hh,
    extractChar_spaced_token t2 ht2, extractInt_spaced _ hfx, extractInt_spaced _ hfy,
    extractChar_spaced_token t3 ht3, extractChar_spaced_token d hd,
    extractInt_spaced _ hn, tagsMatch, readVariable, if_neg hlen, Int.toNat_ofNat,
    readSegments_segmentTokens coords hcoords]
  by_cases h1 : t1 = 'W'
  · by_cases h2 : t2 = 'F'
    · by_cases h3 : t3 = 'S'
      · simp only [h1, h2, h3, if_true, decide_True, and_self]
      · simp [h1, h2, h3]
    · simp [h1, h2]
  · simp [h1]

theorem checkDirection_of_not_letter (d : Char) (hd : d ∉ ['U', 'D', 'L', 'R']) :
    checkDirection d = Except.error Fault.ConfigurationError := by
  simp only [List.mem_cons, List.mem_singleton, List.not_mem_nil, or_false, not_or] at hd
  obtain ⟨h1, h2, h3, h4⟩ := hd
  simp [checkDirection, h1, h2, h3, h4]

theorem checkDirection_of_letter (d : Char) (hd : d ∈ ['U', 'D', 'L', 'R']) :
    ∃ direction, checkDirection d = Except.ok direction := by
  simp only [List.mem_cons, List.mem_singleton, List.not_mem_nil, or_false] at hd
  rcases hd with h | h | h | h <;> subst h
  · exact ⟨Direction.UP, rfl⟩
  · exact ⟨Direction.DOWN, rfl⟩
  · exact ⟨Direction.LEFT, rfl⟩
  · exact ⟨Direction.RIGHT, rfl⟩

/-- C11: on a text that has the grammar's shape but for its three tag
characters and its direction character (numerals denoting values of `int`),
construction ends with `ConfigurationError`, and so yields no Controller, when
the tags are not `W`, `F`, `S` in that order or the direction character is
none of `U`, `D`, `L`, `R`; when the tags are `W`, `F`, `S` and the direction
character is one of the four, construction yields a Controller and so does
not end with `ConfigurationError`. -/
theorem Controller_configuration_error (t1 t2 t3 d : Char) (w h fx fy : Int)
    (coords : List (Int × Int))
    (ht1 : isspace t1 = false) (ht2 : isspace t2 = false) (ht3 : isspace t3 = false)
    (hd : isspace d = false)
    (hw : IsInt w) (hh : IsInt h) (hfx : IsInt fx) (hfy : IsInt fy)
    (hn : IsInt (coords.length : Int))
    (hcoords : ∀ p ∈ coords, IsInt p.1 ∧ IsInt p.2) :
    ((¬ (t1 = 'W' ∧ t2 = 'F' ∧ t3 = 'S') ∨ d ∉ ['U', 'D', 'L', 'R']) →
      Controller.Controller (taggedText t1 t2 t3 w h fx fy d coords) =
        Except.error Fault.ConfigurationError) ∧
    ((t1 = 'W' ∧ t2 = 'F' ∧ t3 = 'S') ∧ d ∈ ['U', 'D', 'L', 'R'] →
      (∃ c, Controller.Controller (taggedText t1 t2 t3 w h fx fy d coords) = Except.ok c) ∧
      Controller.Controller (taggedText t1 t2 t3 w h fx fy d coords) ≠
        Except.error Fault.ConfigurationError) := by
  have hrun := Controller_of_taggedText t1 t2 t3 d w h fx fy coords ht1 ht2 ht3 hd hw hh hfx hfy
    hn hcoords
  constructor
  · intro hbad
    by_cases htags : t1 = 'W' ∧ t2 = 'F' ∧ t3 = 'S'
    · rcases hbad with hbad | hbad
      · exact absurd htags hbad
      · rw [hrun, if_pos htags, checkDirection_of_not_letter d hbad]
    · rw [hrun, if_neg htags]
  · rintro ⟨htags, hletter⟩
    obtain ⟨direction, hdir⟩ := checkDirection_of_letter d hletter
    rw [hrun, if_pos htags, hdir]
    exact ⟨⟨_, rfl⟩, by simp⟩

/-- The scenario's text with a wrong first tag, with a wrong direction
character, and as it stands. -/
theorem Controller_configuration_error_witness :
    Controller.Controller "X 10 10 F 5 5 S U 3 1 1 2 1 3 1".toList =
      Except.error Fault.ConfigurationError ∧
    Controller.Controller "W 10 10 F 5 5 S x 3 1 1 2 1 3 1".toList =
      Except.error Fault.ConfigurationError ∧
    Controller.Controller "W 10 10 F 5 5 S U 3 1 1 2 1 3 1".toList ≠
      Except.error Fault.ConfigurationError :=
  ⟨(Controller_configuration_error 'X' 'F' 'S' 'U' 10 10 5 5 [(1, 1), (2, 1), (3, 1)]
      rfl rfl rfl rfl (by decide) (by decide) (by decide) (by decide) (by decide)
      (by decide)).1 (Or.inl (by decide)),
   (Controller_configuration_error 'W' 'F' 'S' 'x' 10 10 5 5 [(1, 1), (2, 1), (3, 1)]
      rfl rfl rfl rfl (by decide) (by decide) (by decide) (by decide) (by decide)
      (by decide)).1 (Or.inr (by decide)),
   ((Controller_configuration_error 'W' 'F' 'S' 'U' 10 10 5 5 [(1, 1), (2, 1), (3, 1)]
      rfl rfl rfl rfl (by decide) (by decide) (by decide) (by decide) (by decide)
      (by decide)).2 ⟨by decide, by decide⟩).2⟩

/-! ## What one event does to the body -/

/-- The four ways a tick can end, with the state and the notifications of each. -/
theorem receive_tick_cases (c c' : Controller) (sent : List Notification)
    (h : receive c Event.TimeoutInd = Except.ok (c', sent)) :
    ∃ newHead, makeHead c = Except.ok newHead ∧
      ((OnBody c.m_segments newHead.x newHead.y ∧ c' = c ∧ sent = [Notification.LooseInd]) ∨
       (¬ OnBody c.m_segments newHead.x newHead.y ∧
          (newHead.x, newHead.y) = c.m_foodPosition ∧
          c' = { c with
                 m_segments := (newHead :: c.m_segments).filter (fun s => decide (s.ttl > 0)) } ∧
          sent = [Notification.ScoreInd, Notification.FoodReq,
                  Notification.DisplayInd newHead.x newHead.y Cell.SNAKE]) ∨
       (¬ OnBody c.m_segments newHead.x newHead.y ∧
          (newHead.x, newHead.y) ≠ c.m_foodPosition ∧
          ¬ InBounds c newHead.x newHead.y ∧ c' = c ∧ sent = [Notification.LooseInd]) ∨
       (OrdinaryHead c newHead ∧
          c' = { c with
                 m_segments := (newHead :: c.m_segments.map Segment.decremented).filter
                   (fun s => decide (s.ttl > 0)) } ∧
          sent = ordinaryTickSent newHead c.m_segments)) := by
  unfold receive at h
  cases hhead : makeHead c with
  | error f => rw [hhead] at h; cases h
  | ok newHead =>
    refine ⟨newHead, rfl, ?_⟩
    rw [hhead] at h
    cases hcol : collides c.m_segments newHead.x newHead.y with
    | true =>
      have hon := (collides_eq_true_iff _ _ _).mp hcol
      simp only [checkIfNewHeadCollidesWithBody, hcol, if_true, Except.ok.injEq,
        Prod.mk.injEq] at h
      exact Or.inl ⟨hon, h.1.symm, h.2.symm⟩
    | false =>
      have hoff := (collides_eq_false_iff _ _ _).mp hcol
      by_cases hfood : (newHead.x, newHead.y) = c.m_foodPosition
      · simp only [checkIfNewHeadCollidesWithBody, hcol, checkIfSnakeCanBeMoved, if_pos hfood,
          moveSnake, Bool.false_eq_true, if_false, Except.ok.injEq, Prod.mk.injEq,
          List.nil_append, List.cons_append] at h
        exact Or.inr (Or.inl ⟨hoff, hfood, h.1.symm, h.2.symm⟩)
      · by_cases hout : newHead.x < 0 ∨ newHead.y < 0 ∨ newHead.x ≥ c.m_mapDimension.1 ∨
            newHead.y ≥ c.m_mapDimension.2
        · simp only [checkIfNewHeadCollidesWithBody, hcol, checkIfSnakeCanBeMoved,
            if_neg hfood, if_pos hout, Bool.false_eq_true, if_false, if_true, Except.ok.injEq,
            Prod.mk.injEq, List.nil_append] at h
          refine Or.inr (Or.inr (Or.inl ⟨hoff, hfood, ?_, h.1.symm, h.2.symm⟩))
          unfold InBounds
          omega
        · simp only [checkIfNewHeadCollidesWithBody, hcol, checkIfSnakeCanBeMoved,
            if_neg hfood, if_neg hout, moveSnake, decaySegments_fst, decaySegments_snd,
            Bool.false_eq_true, if_false, Except.ok.injEq, Prod.mk.injEq,
            List.nil_append] at h
          refine Or.inr (Or.inr (Or.inr ⟨⟨hoff, hfood, ?_⟩, h.1.symm, ?_⟩))
          · unfold InBounds
            omega
          · rw [← h.2]
            rfl

/-- A tick of a state with a body is always processed to a result. -/
theorem receive_tick_ok (c : Controller) (hbody : c.m_segments ≠ []) :
    ∃ r, receive c Event.TimeoutInd = Except.ok r := by
  obtain ⟨newHead, hhead⟩ := makeHead_ok_of_ne_nil c hbody
  unfold receive
  rw [hhead]
  simp only
  split
  · exact ⟨_, rfl⟩
  · split <;> exact ⟨_, rfl⟩

/-- Only a tick writes the body. -/
theorem receive_segments_of_not_tick (c c' : Controller) (e : Event) (sent : List Notification)
    (he : e ≠ Event.TimeoutInd) (h : receive c e = Except.ok (c', sent)) :
    c'.m_segments = c.m_segments := by
  cases e with
  | TimeoutInd => exact absurd rfl he
  | DirectionInd d =>
    simp only [receive] at h
    split at h
    · cases h
    · injection h with h
      rw [← (Prod.mk.inj h).1]
  | FoodInd x y =>
    simp only [receive, Except.ok.injEq, Prod.mk.injEq] at h
    rw [← h.1]
  | FoodResp x y =>
    simp only [receive, Except.ok.injEq, Prod.mk.injEq] at h
    rw [← h.1]
  | other => cases h

/-! ## The ttl chain -/

theorem ttlSteps_bounds : ∀ (l : List Int) (a : Int), TtlSteps a l →
    1 ≤ a ∧ ∀ b ∈ l, 1 ≤ b ∧ b ≤ a := by
  intro l
  induction l with
  | nil =>
    intro a h
    simp only [TtlSteps] at h
    exact ⟨by omega, by simp⟩
  | cons b rest ih =>
    intro a h
    obtain ⟨hstep, hrest⟩ := h
    obtain ⟨hb, hall⟩ := ih b hrest
    refine ⟨by omega, ?_⟩
    intro x hx
    rcases List.mem_cons.mp hx with rfl | hx
    · exact ⟨hb, by omega⟩
    · have := hall x hx
      exact ⟨this.1, by omega⟩

theorem ttlSteps_pairwise : ∀ (l : List Int) (a : Int), TtlSteps a l →
    (a :: l).Pairwise (fun x y => y ≤ x) := by
  intro l
  induction l with
  | nil => intro a _; simp
  | cons b rest ih =>
    intro a h
    have hb := ttlSteps_bounds _ a h
    rw [List.pairwise_cons]
    exact ⟨fun x hx => (hb.2 x hx).2, ih b h.2⟩

theorem ttlSteps_has_one : ∀ (l : List Int) (a : Int), TtlSteps a l → (1 : Int) ∈ a :: l := by
  intro l
  induction l with
  | nil =>
    intro a h
    simp only [TtlSteps] at h
    simp [h]
  | cons b rest ih =>
    intro a h
    exact List.mem_cons_of_mem _ (ih b h.2)

theorem ttlChain_ne_nil (n : Int) (body : List Segment) (h : TtlChain n body) : body ≠ [] := by
  cases body with
  | nil => exact absurd h (by simp [TtlChain])
  | cons s rest => simp

theorem ttlChain_head (n : Int) (body : List Segment) (h : TtlChain n body) :
    ∃ s rest, body = s :: rest ∧ s.ttl = n := by
  cases body with
  | nil => exact absurd h (by simp [TtlChain])
  | cons s rest => exact ⟨s, rest, rfl, h.1⟩

theorem ttlChain_bounds (n : Int) (body : List Segment) (h : TtlChain n body) :
    1 ≤ n ∧ ∀ s ∈ body, 1 ≤ s.ttl ∧ s.ttl ≤ n := by
  cases body with
  | nil => exact absurd h (by simp [TtlChain])
  | cons s rest =>
    obtain ⟨hs, hsteps⟩ := h
    obtain ⟨hn, hall⟩ := ttlSteps_bounds _ n hsteps
    refine ⟨hn, ?_⟩
    intro t ht
    rcases List.mem_cons.mp ht with rfl | ht
    · omega
    · exact hall t.ttl (List.mem_map_of_mem _ ht)

theorem ttlChain_nonIncreasing (n : Int) (body : List Segment) (h : TtlChain n body) :
    TtlNonIncreasing body := by
  cases body with
  | nil => exact absurd h (by simp [TtlChain])
  | cons s rest =>
    obtain ⟨hs, hsteps⟩ := h
    have hp := ttlSteps_pairwise _ n hsteps
    rw [← hs] at hp
    have hmap : (s :: rest).map Segment.ttl = s.ttl :: rest.map Segment.ttl := rfl
    rw [← hmap, List.pairwise_map] at hp
    exact hp

theorem ttlChain_has_one (n : Int) (body : List Segment) (h : TtlChain n body) :
    ∃ s ∈ body, s.ttl = 1 := by
  cases body with
  | nil => exact absurd h (by simp [TtlChain])
  | cons s rest =>
    obtain ⟨hs, hsteps⟩ := h
    have h1 := ttlSteps_has_one _ n hsteps
    rw [← hs] at h1
    have hmap : (s :: rest).map Segment.ttl = s.ttl :: rest.map Segment.ttl := rfl
    rw [← hmap, List.mem_map] at h1
    obtain ⟨t, ht, ht1⟩ := h1
    exact ⟨t, ht, ht1⟩

/-- Decay followed by the erase of the expired segments, on a chain that starts
with `s`: nothing is left when `s` has ttl 1, and otherwise what is left is a
chain that starts with `s` decremented. -/
theorem ttlSteps_decay : ∀ (rest : List Segment) (s : Segment),
    TtlSteps s.ttl (rest.map Segment.ttl) →
    (s.ttl = 1 →
      ((s :: rest).map Segment.decremented).filter (fun t => decide (t.ttl > 0)) = []) ∧
    (2 ≤ s.ttl → ∃ l,
      ((s :: rest).map Segment.decremented).filter (fun t => decide (t.ttl > 0)) =
        s.decremented :: l ∧
      TtlSteps (s.ttl - 1) (l.map Segment.ttl)) := by
  intro rest
  induction rest with
  | nil =>
    intro s h
    simp only [List.map_nil, TtlSteps] at h
    constructor
    · intro _
      simp [Segment.decremented, h]
    · intro h2
      omega
  | cons b rest ih =>
    intro s h
    simp only [List.map_cons, TtlSteps] at h
    obtain ⟨hstep, hrest⟩ := h
    obtain ⟨ih1, ih2⟩ := ih b hrest
    have hb := (ttlSteps_bounds _ b.ttl hrest).1
    constructor
    · intro hs1
      have hb1 : b.ttl = 1 := by omega
      have := ih1 hb1
      rw [List.map_cons, List.filter_cons]
      simp only [Segment.decremented, hs1]
      simpa using this
    · intro hs2
      have hkeep : decide (s.decremented.ttl > 0) = true := by
        simp only [Segment.decremented, decide_eq_true_eq]
        omega
      rw [List.map_cons, List.filter_cons, if_pos hkeep]
      by_cases hb1 : b.ttl = 1
      · refine ⟨[], ?_, ?_⟩
        · rw [ih1 hb1]
        · simp only [List.map_nil, TtlSteps]
          omega
      · obtain ⟨l, hl, hsteps⟩ := ih2 (by omega)
        refine ⟨b.decremented :: l, ?_, ?_⟩
        · rw [hl]
        · simp only [List.map_cons, TtlSteps]
          refine ⟨?_, hsteps⟩
          simp only [Segment.decremented]
          omega

/-- An ordinary tick keeps the chain. -/
theorem ttlChain_ordinary (n : Int) (body : List Segment) (newHead : Segment)
    (h : TtlChain n body) (hnew : newHead.ttl = n) :
    TtlChain n ((newHead :: body.map Segment.decremented).filter
      (fun s => decide (s.ttl > 0))) := by
  obtain ⟨hn, _⟩ := ttlChain_bounds n body h
  have hkeep : decide (newHead.ttl > 0) = true := by
    rw [decide_eq_true_eq]
    omega
  rw [List.filter_cons, if_pos hkeep]
  cases body with
  | nil => exact absurd h (by simp [TtlChain])
  | cons s rest =>
    obtain ⟨hs, hsteps⟩ := h
    rw [← hs] at hsteps
    obtain ⟨h1, h2⟩ := ttlSteps_decay rest s hsteps
    by_cases hn1 : s.ttl = 1
    · rw [h1 hn1]
      exact ⟨hnew, by simp only [List.map_nil, TtlSteps]; omega⟩
    · obtain ⟨l, hl, hl2⟩ := h2 (by omega)
      rw [hl]
      refine ⟨hnew, ?_⟩
      simp only [List.map_cons, TtlSteps]
      refine ⟨?_, hl2⟩
      simp only [Segment.decremented]
      omega

/-- A food tick keeps the chain. -/
theorem ttlChain_food (n : Int) (body : List Segment) (newHead : Segment)
    (h : TtlChain n body) (hnew : newHead.ttl = n) :
    (newHead :: body).filter (fun s => decide (s.ttl > 0)) = newHead :: body ∧
    TtlChain n (newHead :: body) := by
  obtain ⟨hn, hall⟩ := ttlChain_bounds n body h
  constructor
  · apply filter_positive_of_all_positive
    intro s hs
    rcases List.mem_cons.mp hs with rfl | hs
    · omega
    · have := (hall s hs).1
      omega
  · cases body with
    | nil => exact absurd h (by simp [TtlChain])
    | cons s rest =>
      obtain ⟨hs, hsteps⟩ := h
      refine ⟨hnew, ?_⟩
      simp only [List.map_cons, TtlSteps]
      exact ⟨Or.inl hs, by rw [hs]; exact hsteps⟩

/-! ## Invariants of a run -/

theorem receive_ttlChain (n : Int) (c c' : Controller) (e : Event) (sent : List Notification)
    (h : TtlChain n c.m_segments) (hstep : receive c e = Except.ok (c', sent)) :
    TtlChain n c'.m_segments := by
  by_cases he : e = Event.TimeoutInd
  · subst he
    obtain ⟨newHead, hhead, hcases⟩ := receive_tick_cases c c' sent hstep
    obtain ⟨cur, rest, hcur, hcurttl⟩ := makeHead_ttl c newHead hhead
    obtain ⟨s, rest2, hs, hsn⟩ := ttlChain_head n _ h
    have hnew : newHead.ttl = n := by
      rw [hcur] at hs
      injection hs with h1 _
      rw [hcurttl, h1, hsn]
    rcases hcases with ⟨_, hc, _⟩ | ⟨_, _, hc, _⟩ | ⟨_, _, _, hc, _⟩ | ⟨_, hc, _⟩
    · rw [hc]; exact h
    · rw [hc]
      simp only
      rw [(ttlChain_food n _ newHead h hnew).1]
      exact (ttlChain_food n _ newHead h hnew).2
    · rw [hc]; exact h
    · rw [hc]
      exact ttlChain_ordinary n _ newHead h hnew
  · rw [receive_segments_of_not_tick c c' e sent he hstep]
    exact h

theorem filter_distinctCells (body : List Segment) (p : Segment → Bool)
    (h : DistinctCells body) : DistinctCells (body.filter p) :=
  List.Pairwise.sublist (List.filter_sublist body) h

theorem cons_distinctCells (body : List Segment) (newHead : Segment)
    (h : DistinctCells body) (hoff : ¬ OnBody body newHead.x newHead.y) :
    DistinctCells (newHead :: body) := by
  unfold DistinctCells
  rw [List.pairwise_cons]
  refine ⟨?_, h⟩
  intro s hs hxy
  exact hoff ⟨s, hs, hxy.1.symm, hxy.2.symm⟩

theorem map_decremented_distinctCells (body : List Segment) (h : DistinctCells body) :
    DistinctCells (body.map Segment.decremented) := by
  unfold DistinctCells at h ⊢
  rw [List.pairwise_map]
  exact h

theorem onBody_map_decremented (body : List Segment) (x y : Int) :
    OnBody (body.map Segment.decremented) x y ↔ OnBody body x y := by
  unfold OnBody
  constructor
  · rintro ⟨s, hs, hxy⟩
    obtain ⟨t, ht, rfl⟩ := List.mem_map.mp hs
    exact ⟨t, ht, hxy⟩
  · rintro ⟨s, hs, hxy⟩
    exact ⟨s.decremented, List.mem_map_of_mem _ hs, hxy⟩

theorem receive_distinctCells (c c' : Controller) (e : Event) (sent : List Notification)
    (h : DistinctCells c.m_segments) (hstep : receive c e = Except.ok (c', sent)) :
    DistinctCells c'.m_segments := by
  by_cases he : e = Event.TimeoutInd
  · subst he
    obtain ⟨newHead, hhead, hcases⟩ := receive_tick_cases c c' sent hstep
    rcases hcases with ⟨_, hc, _⟩ | ⟨hoff, _, hc, _⟩ | ⟨_, _, _, hc, _⟩ | ⟨hord, hc, _⟩
    · rw [hc]; exact h
    · rw [hc]
      exact filter_distinctCells _ _ (cons_distinctCells _ newHead h hoff)
    · rw [hc]; exact h
    · rw [hc]
      apply filter_distinctCells
      apply cons_distinctCells _ newHead (map_decremented_distinctCells _ h)
      rw [onBody_map_decremented]
      exact hord.1
  · rw [receive_segments_of_not_tick c c' e sent he hstep]
    exact h

/-- What holds of the body before a run and is kept by every event holds
after the run. -/
theorem receiveAll_invariant (P : List Segment → Prop)
    (hstep : ∀ (c c' : Controller) (e : Event) (sent : List Notification),
      P c.m_segments → receive c e = Except.ok (c', sent) → P c'.m_segments) :
    ∀ (events : List Event) (c0 c : Controller) (sent : List Notification),
      P c0.m_segments → receiveAll c0 events = Except.ok (c, sent) → P c.m_segments := by
  intro events
  induction events with
  | nil =>
    intro c0 c sent h0 hrun
    simp only [receiveAll, Except.ok.injEq, Prod.mk.injEq] at hrun
    rw [← hrun.1]
    exact h0
  | cons e events ih =>
    intro c0 c sent h0 hrun
    simp only [receiveAll] at hrun
    split at hrun
    · cases hrun
    · rename_i r1 hr1
      split at hrun
      · cases hrun
      · rename_i r2 hr2
        simp only [Except.ok.injEq, Prod.mk.injEq] at hrun
        rw [← hrun.1]
        exact ih r1.1 r2.1 r2.2 (hstep c0 r1.1 e r1.2 h0 hr1) hr2

/-! ## The body a configuration gives -/

theorem readSegments_ttlChain : ∀ (n : Nat) (istr : IStringStream) (segments : List Segment),
    readSegments n istr = Except.ok segments →
    segments.length = n ∧ (segments = [] ∨ TtlChain (n : Int) segments) := by
  intro n
  induction n with
  | zero =>
    intro istr segments h
    simp only [readSegments, Except.ok.injEq] at h
    rw [← h]
    exact ⟨rfl, Or.inl rfl⟩
  | succ n ih =>
    intro istr segments h
    simp only [readSegments] at h
    split at h
    · rename_i x y hx hy
      split at h
      · rename_i rest hrest
        simp only [Except.ok.injEq] at h
        obtain ⟨hlen, hchain⟩ := ih _ rest hrest
        rw [← h]
        refine ⟨by simp [hlen], Or.inr ⟨rfl, ?_⟩⟩
        rcases hchain with hnil | hchain
        · rw [hnil] at hlen ⊢
          simp only [List.length_nil] at hlen
          simp only [List.map_nil, TtlSteps]
          omega
        · cases rest with
          | nil => exact absurd hchain (by simp [TtlChain])
          | cons s rest =>
            obtain ⟨hs, hsteps⟩ := hchain
            simp only [List.map_cons, TtlSteps]
            refine ⟨Or.inr (by rw [hs]; push_cast; omega), by rw [hs]; exact hsteps⟩
      · cases h
    · cases h
    · cases h

/-- A constructed body is empty or a ttl chain from its length down to 1. -/
theorem Controller_ttlChain (text : List Char) (c0 : Controller)
    (h : Controller.Controller text = Except.ok c0) :
    c0.m_segments = [] ∨ TtlChain (c0.m_segments.length : Int) c0.m_segments := by
  unfold Controller.Controller at h
  simp only at h
  repeat' split at h
  all_goals first
    | (rename_i segments hseg
       simp only [Except.ok.injEq] at h
       rw [← h]
       obtain ⟨hlen, hchain⟩ := readSegments_ttlChain _ _ segments hseg
       simp only
       rcases hchain with hnil | hchain
       · exact Or.inl hnil
       · right
         rw [hlen]
         exact hchain)
    | cases h

/-- The chain invariant of every state reached from a constructed state with
a body: started at its length `n`, the ttls go down from `n` to 1. -/
theorem reachable_ttlChain (text : List Char) (c0 c : Controller) (events : List Event)
    (sent : List Notification)
    (hparse : Controller.Controller text = Except.ok c0) (hlen : c0.m_segments ≠ [])
    (hrun : receiveAll c0 events = Except.ok (c, sent)) :
    TtlChain (c0.m_segments.length : Int) c.m_segments := by
  have h0 : TtlChain (c0.m_segments.length : Int) c0.m_segments := by
    rcases Controller_ttlChain text c0 hparse with h | h
    · exact absurd h hlen
    · exact h
  exact receiveAll_invariant (TtlChain (c0.m_segments.length : Int))
    (fun c c' e sent h hs => receive_ttlChain _ c c' e sent h hs) events c0 c sent h0 hrun

/-! ## Loss -/

theorem receiveAll_replicate_loss (c : Controller)
    (h : receive c Event.TimeoutInd = Except.ok (c, [Notification.LooseInd])) (n : Nat) :
    receiveAll c (List.replicate n Event.TimeoutInd) =
      Except.ok (c, List.replicate n Notification.LooseInd) := by
  induction n with
  | zero => rfl
  | succ n ih => simp [List.replicate_succ, receiveAll, h, ih]

/-- C14: when a tick emits a loss notification, that is its only notification
and the state after it equals the state before it; therefore `n` consecutive
ticks emit exactly `n` loss notifications and leave the state unchanged. -/
theorem loss_tick_repeats (c c' : Controller) (sent : List Notification)
    (h : receive c Event.TimeoutInd = Except.ok (c', sent))
    (hloss : Notification.LooseInd ∈ sent) :
    c' = c ∧ sent = [Notification.LooseInd] ∧
    ∀ n : Nat, receiveAll c (List.replicate n Event.TimeoutInd) =
      Except.ok (c, List.replicate n Notification.LooseInd) := by
  have hsame : c' = c ∧ sent = [Notification.LooseInd] := by
    obtain ⟨newHead, _, hcases⟩ := receive_tick_cases c c' sent h
    rcases hcases with ⟨_, hc, hs⟩ | ⟨_, _, _, hs⟩ | ⟨_, _, _, hc, hs⟩ | ⟨_, _, hs⟩
    · exact ⟨hc, hs⟩
    · rw [hs] at hloss
      simp at hloss
    · exact ⟨hc, hs⟩
    · rw [hs] at hloss
      simp [ordinaryTickSent] at hloss
  obtain ⟨hc, hs⟩ := hsame
  rw [hc, hs] at h
  exact ⟨hc, hs, receiveAll_replicate_loss c h⟩

/-- The snake on the top row keeps running off the map: three ticks, three
loss notifications, the same state. -/
theorem loss_tick_repeats_witness :
    receive topRowState Event.TimeoutInd = Except.ok (topRowState, [Notification.LooseInd]) ∧
    receiveAll topRowState [Event.TimeoutInd, Event.TimeoutInd, Event.TimeoutInd] =
      Except.ok (topRowState,
        [Notification.LooseInd, Notification.LooseInd, Notification.LooseInd]) :=
  ⟨by decide,
   (loss_tick_repeats topRowState topRowState [Notification.LooseInd] (by decide)
      (by decide)).2.2 3⟩

/-! ## Invariants of the states a configuration leads to -/

theorem decayed_length (body : List Segment) (h : ∀ s ∈ body, 1 ≤ s.ttl) :
    ((body.map Segment.decremented).filter (fun s => decide (s.ttl > 0))).length +
      (body.filter (fun s => decide (s.ttl = 1))).length = body.length := by
  induction body with
  | nil => rfl
  | cons s rest ih =>
    have hs := h s (List.mem_cons_self _ _)
    have ih2 := ih (fun t ht => h t (List.mem_cons_of_mem _ ht))
    by_cases h1 : s.ttl = 1
    · have hdrop : ¬ (s.decremented.ttl > 0) := by
        simp only [Segment.decremented]
        omega
      simp only [List.map_cons, List.filter_cons, hdrop, h1, decide_False, decide_True,
        if_true, List.length_cons, Bool.false_eq_true, if_false]
      omega
    · have hkeep : s.decremented.ttl > 0 := by
        simp only [Segment.decremented]
        omega
      simp only [List.map_cons, List.filter_cons, hkeep, h1, decide_False, decide_True,
        if_true, List.length_cons, Bool.false_eq_true, if_false]
      omega

/-- C15, as stated, fails: `grownState` is reached from the configuration
`feedingText` by `feedingRun` (the snake eats, then moves twice); its computed
head `(1,1)` is on no segment, is not the food and is in bounds; and this
ordinary tick drops the two segments of ttl 1 for the one head it prepends, so
the body goes from four segments to three: the segment gained is not kept. -/
theorem ordinary_tick_loses_gained_segment :
    Controller.Controller feedingText = Except.ok feedingState ∧
    feedingState.m_segments.length = 3 ∧
    receiveAll feedingState feedingRun = Except.ok (grownState, feedingSent) ∧
    makeHead grownState = Except.ok ⟨1, 1, 3⟩ ∧
    OrdinaryHead grownState ⟨1, 1, 3⟩ ∧
    receive grownState Event.TimeoutInd =
      Except.ok (shrunkState,
        [Notification.DisplayInd 1 4 Cell.FREE, Notification.DisplayInd 1 5 Cell.FREE,
         Notification.DisplayInd 1 1 Cell.SNAKE]) ∧
    grownState.m_segments.length = 4 ∧
    shrunkState.m_segments.length = 3 := by
  decide

/-- C15 (amended): in every state reached from a constructed state with a
body, an ordinary tick is processed, prepends one head and drops exactly the
segments whose ttl is 1, of which there is at least one: the number of
segments never grows, and it is unchanged exactly when one segment has ttl 1. -/
theorem ordinary_tick_length (text : List Char) (c0 c : Controller) (events : List Event)
    (sent : List Notification) (newHead : Segment)
    (hparse : Controller.Controller text = Except.ok c0) (hlen : c0.m_segments ≠ [])
    (hrun : receiveAll c0 events = Except.ok (c, sent))
    (hhead : makeHead c = Except.ok newHead) (hord : OrdinaryHead c newHead) :
    ∃ c' sent', receive c Event.TimeoutInd = Except.ok (c', sent') ∧
      c'.m_segments.length + (c.m_segments.filter (fun s => decide (s.ttl = 1))).length =
        c.m_segments.length + 1 ∧
      1 ≤ (c.m_segments.filter (fun s => decide (s.ttl = 1))).length ∧
      c'.m_segments.length ≤ c.m_segments.length := by
  have hchain := reachable_ttlChain text c0 c events sent hparse hlen hrun
  obtain ⟨hn, hall⟩ := ttlChain_bounds _ _ hchain
  obtain ⟨⟨c', sent'⟩, hstep⟩ := receive_tick_ok c (ttlChain_ne_nil _ _ hchain)
  obtain ⟨newHead', hhead', hcases⟩ := receive_tick_cases c c' sent' hstep
  have hsame : newHead' = newHead := by
    rw [hhead] at hhead'
    injection hhead' with h
    exact h.symm
  subst hsame
  obtain ⟨hoff, hfood, hin⟩ := hord
  have hone : 1 ≤ (c.m_segments.filter (fun s => decide (s.ttl = 1))).length := by
    obtain ⟨s, hs, hs1⟩ := ttlChain_has_one _ _ hchain
    have hmem : s ∈ c.m_segments.filter (fun s => decide (s.ttl = 1)) :=
      List.mem_filter.mpr ⟨hs, by simp [hs1]⟩
    exact List.length_pos_of_mem hmem
  refine ⟨c', sent', hstep, ?_⟩
  rcases hcases with ⟨hon, _, _⟩ | ⟨_, hf, _, _⟩ | ⟨_, _, hout, _, _⟩ | ⟨_, hc, _⟩
  · exact absurd hon hoff
  · exact absurd hf hfood
  · exact absurd hin hout
  · obtain ⟨cur, rest, hcur, hcurttl⟩ := makeHead_ttl c newHead' hhead
    have hpos : decide (newHead'.ttl > 0) = true := by
      have := (hall cur (by rw [hcur]; exact List.mem_cons_self _ _)).1
      rw [decide_eq_true_eq]
      omega
    have hdec := decayed_length c.m_segments (fun s hs => (hall s hs).1)
    rw [hc]
    simp only [List.filter_cons, hpos, if_true, List.length_cons]
    omega

/-- The ordinary tick of `grownState`, the state `feedingRun` leads to. -/
theorem ordinary_tick_length_witness :
    ∃ c' sent', receive grownState Event.TimeoutInd = Except.ok (c', sent') ∧
      c'.m_segments.length +
          (grownState.m_segments.filter (fun s => decide (s.ttl = 1))).length =
        grownState.m_segments.length + 1 ∧
      1 ≤ (grownState.m_segments.filter (fun s => decide (s.ttl = 1))).length ∧
      c'.m_segments.length ≤ grownState.m_segments.length :=
  ordinary_tick_length feedingText feedingState grownState feedingRun feedingSent ⟨1, 1, 3⟩
    (by decide) (by decide) (by decide) (by decide) (by decide)

/-- C16: after every run of events from a constructed state with a body the
body is not empty, so the next tick finds its front segment and is processed
to a result, and so is every food event and every direction request off the
current axis. -/
theorem body_never_empty (text : List Char) (c0 c : Controller) (events : List Event)
    (sent : List Notification)
    (hparse : Controller.Controller text = Except.ok c0) (hlen : c0.m_segments ≠ [])
    (hrun : receiveAll c0 events = Except.ok (c, sent)) :
    c.m_segments ≠ [] ∧
    (∃ newHead, makeHead c = Except.ok newHead) ∧
    (∃ r, receive c Event.TimeoutInd = Except.ok r) ∧
    (∀ x y, ∃ r, receive c (Event.FoodInd x y) = Except.ok r) ∧
    (∀ x y, ∃ r, receive c (Event.FoodResp x y) = Except.ok r) ∧
    (∀ d : Direction, d.axisBit ≠ c.m_currentDirection.axisBit →
      ∃ r, receive c (Event.DirectionInd d) = Except.ok r) := by
  have hchain := reachable_ttlChain text c0 c events sent hparse hlen hrun
  have hne := ttlChain_ne_nil _ _ hchain
  refine ⟨hne, makeHead_ok_of_ne_nil c hne, receive_tick_ok c hne, ?_, ?_, ?_⟩
  · intro x y
    exact ⟨_, rfl⟩
  · intro x y
    exact ⟨_, rfl⟩
  · intro d hd
    have h : (c.m_currentDirection.code &&& 0b01) ≠ (d.code &&& 0b01) := fun e => hd e.symm
    have hadj : adjustDirection c d = Except.ok d := by
      unfold adjustDirection
      rw [if_pos h]
    refine ⟨({ c with m_currentDirection := d }, []), ?_⟩
    simp only [receive, hadj]

/-- The body after `feedingRun` is not empty. -/
theorem body_never_empty_witness :
    grownState.m_segments ≠ [] ∧
    (∃ newHead, makeHead grownState = Except.ok newHead) ∧
    (∃ r, receive grownState Event.TimeoutInd = Except.ok r) ∧
    (∀ x y, ∃ r, receive grownState (Event.FoodInd x y) = Except.ok r) ∧
    (∀ x y, ∃ r, receive grownState (Event.FoodResp x y) = Except.ok r) ∧
    (∀ d : Direction, d.axisBit ≠ grownState.m_currentDirection.axisBit →
      ∃ r, receive grownState (Event.DirectionInd d) = Except.ok r) :=
  body_never_empty feedingText feedingState grownState feedingRun feedingSent
    (by decide) (by decide) (by decide)

/-- C17: when no two segments of a body share a cell, no two segments share a
cell after any run of events from that state. -/
theorem distinct_cells_kept (c0 c : Controller) (events : List Event)
    (sent : List Notification)
    (h0 : DistinctCells c0.m_segments)
    (hrun : receiveAll c0 events = Except.ok (c, sent)) :
    DistinctCells c.m_segments :=
  receiveAll_invariant DistinctCells
    (fun c c' e sent h hs => receive_distinctCells c c' e sent h hs) events c0 c sent h0 hrun

/-- The cells of the snake stay distinct along `feedingRun`. -/
theorem distinct_cells_kept_witness :
    DistinctCells feedingState.m_segments ∧ DistinctCells grownState.m_segments :=
  ⟨by decide,
   distinct_cells_kept feedingState grownState feedingRun feedingSent (by decide) (by decide)⟩

theorem decayed_eq_take (body : List Segment) (h : TtlNonIncreasing body) :
    ∃ k, (body.map Segment.decremented).filter (fun s => decide (s.ttl > 0)) =
      (body.take k).map Segment.decremented := by
  induction body with
  | nil => exact ⟨0, rfl⟩
  | cons s rest ih =>
    unfold TtlNonIncreasing at h
    rw [List.pairwise_cons] at h
    obtain ⟨hs, hrest⟩ := h
    by_cases hkeep : s.decremented.ttl > 0
    · obtain ⟨k, hk⟩ := ih hrest
      refine ⟨k + 1, ?_⟩
      simp only [List.map_cons, List.filter_cons, hkeep, decide_True, if_true, List.take_succ_cons,
        hk]
    · refine ⟨0, ?_⟩
      simp only [List.take_zero, List.map_nil, List.filter_eq_nil_iff, decide_eq_true_eq]
      intro t ht
      rcases List.mem_map.mp ht with ⟨u, hu, rfl⟩
      simp only [Segment.decremented] at hkeep ⊢
      rcases List.mem_cons.mp hu with rfl | hu
      · exact hkeep
      · have := hs u hu
        omega

/-- C18: in every state reached from a constructed state with a body the ttls
do not increase from head to tail, and a tick either commits no movement (the
state is unchanged) or leaves the new head followed by a prefix of the old
body, with the ttls untouched (food) or decremented (ordinary move): the
segments removed are a suffix of the body, never one from the middle. -/
theorem only_tail_dropped (text : List Char) (c0 c : Controller) (events : List Event)
    (sent : List Notification)
    (hparse : Controller.Controller text = Except.ok c0) (hlen : c0.m_segments ≠ [])
    (hrun : receiveAll c0 events = Except.ok (c, sent)) :
    TtlNonIncreasing c.m_segments ∧
    ∀ (c' : Controller) (sent' : List Notification),
      receive c Event.TimeoutInd = Except.ok (c', sent') →
      c' = c ∨
      ∃ newHead k, makeHead c = Except.ok newHead ∧
        (c'.m_segments = newHead :: c.m_segments.take k ∨
         c'.m_segments = newHead :: (c.m_segments.take k).map Segment.decremented) := by
  have hchain := reachable_ttlChain text c0 c events sent hparse hlen hrun
  have hsorted := ttlChain_nonIncreasing _ _ hchain
  obtain ⟨hn, hall⟩ := ttlChain_bounds _ _ hchain
  refine ⟨hsorted, ?_⟩
  intro c' sent' hstep
  obtain ⟨newHead, hhead, hcases⟩ := receive_tick_cases c c' sent' hstep
  obtain ⟨cur, rest, hcur, hcurttl⟩ := makeHead_ttl c newHead hhead
  obtain ⟨s, rest2, hs, hsn⟩ := ttlChain_head _ _ hchain
  have hnew : newHead.ttl = (c0.m_segments.length : Int) := by
    rw [hcur] at hs
    injection hs with h1 _
    rw [hcurttl, h1, hsn]
  have hpos : decide (newHead.ttl > 0) = true := by
    rw [decide_eq_true_eq]
    omega
  rcases hcases with ⟨_, hc, _⟩ | ⟨_, _, hc, _⟩ | ⟨_, _, _, hc, _⟩ | ⟨_, hc, _⟩
  · exact Or.inl hc
  · right
    refine ⟨newHead, c.m_segments.length, hhead, Or.inl ?_⟩
    rw [hc]
    simp only
    rw [(ttlChain_food _ _ newHead hchain hnew).1, List.take_length]
  · exact Or.inl hc
  · right
    obtain ⟨k, hk⟩ := decayed_eq_take c.m_segments hsorted
    refine ⟨newHead, k, hhead, Or.inr ?_⟩
    rw [hc]
    simp only [List.filter_cons, hpos, if_true, hk]

/-- The ttls of `grownState` do not increase, and its tick leaves the new head
followed by the first two segments of the old body. -/
theorem only_tail_dropped_witness :
    TtlNonIncreasing grownState.m_segments ∧
    (shrunkState = grownState ∨
     ∃ newHead k, makeHead grownState = Except.ok newHead ∧
       (shrunkState.m_segments = newHead :: grownState.m_segments.take k ∨
        shrunkState.m_segments =
          newHead :: (grownState.m_segments.take k).map Segment.decremented)) :=
  ⟨(only_tail_dropped feedingText feedingState grownState feedingRun feedingSent
      (by decide) (by decide) (by decide)).1,
   (only_tail_dropped feedingText feedingState grownState feedingRun feedingSent
      (by decide) (by decide) (by decide)).2 shrunkState
      [Notification.DisplayInd 1 4 Cell.FREE, Notification.DisplayInd 1 5 Cell.FREE,
       Notification.DisplayInd 1 1 Cell.SNAKE] (by decide)⟩

/-- C19: in every state reached from a constructed state with a body, every
segment of the body has a ttl of at least 1. -/
theorem stored_ttl_positive (text : List Char) (c0 c : Controller) (events : List Event)
    (sent : List Notification)
    (hparse : Controller.Controller text = Except.ok c0) (hlen : c0.m_segments ≠ [])
    (hrun : receiveAll c0 events = Except.ok (c, sent)) :
    ∀ s ∈ c.m_segments, 1 ≤ s.ttl := by
  have hchain := reachable_ttlChain text c0 c events sent hparse hlen hrun
  intro s hs
  exact ((ttlChain_bounds _ _ hchain).2 s hs).1

/-- The tail segment `(1,5)` of `grownState` has a ttl of at least 1. -/
theorem stored_ttl_positive_witness :
    (⟨1, 5, 1⟩ : Segment) ∈ grownState.m_segments ∧ 1 ≤ (⟨1, 5, 1⟩ : Segment).ttl :=
  ⟨by decide,
   stored_ttl_positive feedingText feedingState grownState feedingRun feedingSent
     (by decide) (by decide) (by decide) ⟨1, 5, 1⟩ (by decide)⟩

/-- C20: in every state reached from a configuration of length `n >= 1` (the
constructed body has `n` segments) the front segment of the body has ttl `n`,
food eaten or not. -/
theorem head_ttl_constant (text : List Char) (c0 c : Controller) (events : List Event)
    (sent : List Notification)
    (hparse : Controller.Controller text = Except.ok c0) (hlen : c0.m_segments ≠ [])
    (hrun : receiveAll c0 events = Except.ok (c, sent)) :
    ∃ front rest, c.m_segments = front :: rest ∧ front.ttl = (c0.m_segments.length : Int) := by
  have hchain := reachable_ttlChain text c0 c events sent hparse hlen hrun
  exact ttlChain_head _ _ hchain

/-- The front segment of `grownState` has ttl 3, the length of the
configuration, though the body has four segments. -/
theorem head_ttl_constant_witness :
    ∃ front rest, grownState.m_segments = front :: rest ∧
      front.ttl = (feedingState.m_segments.length : Int) :=
  head_ttl_constant feedingText feedingState grownState feedingRun feedingSent
    (by decide) (by decide) (by decide)

/-! ## The ordinary tick of a running controller -/

/-- C1: in every state of a running controller, that is every state reached
from a constructed state with a body by a run of events, if the computed head
is on no body segment, is not the food position and is in bounds, then a tick
yields the body `newHead :: [s with ttl-1 | s in old body, s.ttl-1 > 0]` and
emits exactly one display FREE per old segment whose ttl reached 0, in body
order, then one display SNAKE at the new head: no score, loss or food request,
and no other member is written. -/
theorem receive_tick_ordinary (text : List Char) (c0 c : Controller) (events : List Event)
    (sent : List Notification) (newHead : Segment)
    (hparse : Controller.Controller text = Except.ok c0) (hlen : c0.m_segments ≠ [])
    (hrun : receiveAll c0 events = Except.ok (c, sent))
    (hhead : makeHead c = Except.ok newHead)
    (hbody : ¬ OnBody c.m_segments newHead.x newHead.y)
    (hfood : (newHead.x, newHead.y) ≠ c.m_foodPosition)
    (hin : InBounds c newHead.x newHead.y) :
    c.m_segments ≠ [] ∧
    receive c Event.TimeoutInd =
      Except.ok ({ c with m_segments := ordinaryTickBody newHead c.m_segments },
        ordinaryTickSent newHead c.m_segments) := by
  have hchain := reachable_ttlChain text c0 c events sent hparse hlen hrun
  obtain ⟨hn, hall⟩ := ttlChain_bounds _ _ hchain
  obtain ⟨cur, rest, hcur, hcurttl⟩ := makeHead_ttl c newHead hhead
  have httl : 0 < newHead.ttl := by
    have := (hall cur (by rw [hcur]; exact List.mem_cons_self _ _)).1
    omega
  exact ⟨ttlChain_ne_nil _ _ hchain,
    ordinary_tick_of_live_head c newHead hhead httl hbody hfood hin⟩

/-- The scenario of the spec: the tick of the constructed `scenarioState`
clears and drops `(3,1)` and yields the body `(1,0,3),(1,1,2),(2,1,1)`; and
the tick of `grownState`, reached by `feedingRun`, drops its two tail segments. -/
theorem receive_tick_ordinary_witness :
    (receive scenarioState Event.TimeoutInd =
      Except.ok ({ m_mapDimension := (10, 10), m_foodPosition := (5, 5),
                   m_currentDirection := Direction.UP,
                   m_segments := [⟨1, 0, 3⟩, ⟨1, 1, 2⟩, ⟨2, 1, 1⟩] },
        [Notification.DisplayInd 3 1 Cell.FREE, Notification.DisplayInd 1 0 Cell.SNAKE])) ∧
    (receive grownState Event.TimeoutInd =
      Except.ok (shrunkState,
        [Notification.DisplayInd 1 4 Cell.FREE, Notification.DisplayInd 1 5 Cell.FREE,
         Notification.DisplayInd 1 1 Cell.SNAKE])) :=
  ⟨(receive_tick_ordinary scenarioText scenarioState scenarioState [] [] ⟨1, 0, 3⟩
      (by decide) (by decide) (by decide) (by decide) (by decide) (by decide) (by decide)).2,
   (receive_tick_ordinary feedingText feedingState grownState feedingRun feedingSent ⟨1, 1, 3⟩
      (by decide) (by decide) (by decide) (by decide) (by decide) (by decide) (by decide)).2⟩

/-! ## Dispatch -/

theorem receive_eq_result (c : Controller) (e : Event) :
    receive c e = (receiveOutcome c e).result := by
  cases e with
  | TimeoutInd =>
    simp only [receive, receiveOutcome]
    cases makeHead c with
    | error f => rfl
    | ok newHead =>
      simp only
      split
      · rfl
      · split <;> rfl
  | DirectionInd d =>
    simp only [receive, receiveOutcome]
    cases adjustDirection c d <;> rfl
  | FoodInd x y => rfl
  | FoodResp x y => rfl
  | other => rfl

theorem receive_eq_dispatch (c : Controller) (e : Event) : receive c e = dispatch c e := by
  cases e <;> rfl

theorem receive_unexpected_iff_other (c : Controller) (e : Event) :
    receive c e = Except.error Fault.UnexpectedEventException ↔ e = Event.other := by
  cases e with
  | TimeoutInd =>
    simp only [receive, reduceCtorEq, iff_false]
    intro h
    split at h
    · rename_i f hf
      have := makeHead_error c f hf
      rw [this] at h
      cases h
    · split at h
      · cases h
      · split at h <;> cases h
  | DirectionInd d =>
    simp only [receive, reduceCtorEq, iff_false]
    intro h
    split at h
    · rename_i f hf
      have := adjustDirection_error c d f hf
      rw [this] at h
      cases h
    · cases h
  | FoodInd x y => simp [receive]
  | FoodResp x y => simp [receive]
  | other => simp [receive]

/-- What a tick leaves alone: map dimensions, direction and food position. -/
theorem receive_tick_frame (c c' : Controller) (sent : List Notification)
    (h : receive c Event.TimeoutInd = Except.ok (c', sent)) :
    c'.m_mapDimension = c.m_mapDimension ∧ c'.m_currentDirection = c.m_currentDirection ∧
    c'.m_foodPosition = c.m_foodPosition := by
  obtain ⟨newHead, _, hcases⟩ := receive_tick_cases c c' sent h
  rcases hcases with ⟨_, hc, _⟩ | ⟨_, _, hc, _⟩ | ⟨_, _, _, hc, _⟩ | ⟨_, hc, _⟩ <;>
    rw [hc] <;> exact ⟨rfl, rfl, rfl⟩

/-- C12: `receive` ends with `UnexpectedEventException` exactly for an event
that is none of tick, direction-change, unsolicited food and requested-food
response, and then nothing has been sent and the state is the one before the
call.  Every event of the four kinds goes to the one handler of its kind
(`receive` is the spec's `dispatch`), and the effects of the other handlers
are absent: a tick writes neither direction nor food position, a direction
change writes only the direction and sends nothing, a food event writes only
the food position; the map dimensions are never written. -/
theorem receive_dispatch (c : Controller) (e : Event) :
    (receive c e = Except.error Fault.UnexpectedEventException ↔ e = Event.other) ∧
    ((receiveOutcome c e).fault = some Fault.UnexpectedEventException ↔ e = Event.other) ∧
    receiveOutcome c Event.other =
      { state := c, sent := [], fault := some Fault.UnexpectedEventException } ∧
    receive c e = (receiveOutcome c e).result ∧
    receive c e = dispatch c e ∧
    receive c Event.TimeoutInd = tickHandler c ∧
    (∀ d, receive c (Event.DirectionInd d) = directionChangeHandler c d) ∧
    (∀ x y, receive c (Event.FoodInd x y) = unsolicitedFoodHandler c x y) ∧
    (∀ x y, receive c (Event.FoodResp x y) = requestedFoodHandler c x y) ∧
    (∀ (c' : Controller) (sent : List Notification), receive c e = Except.ok (c', sent) →
      c'.m_mapDimension = c.m_mapDimension ∧
      (e = Event.TimeoutInd →
        c'.m_currentDirection = c.m_currentDirection ∧ c'.m_foodPosition = c.m_foodPosition) ∧
      (∀ d, e = Event.DirectionInd d →
        c'.m_segments = c.m_segments ∧ c'.m_foodPosition = c.m_foodPosition ∧ sent = []) ∧
      (∀ x y, e = Event.FoodInd x y ∨ e = Event.FoodResp x y →
        c'.m_segments = c.m_segments ∧ c'.m_currentDirection = c.m_currentDirection ∧
        c'.m_foodPosition = (x, y))) := by
  have hiff := receive_unexpected_iff_other c e
  have hres := receive_eq_result c e
  refine ⟨hiff, ?_, rfl, hres, receive_eq_dispatch c e, rfl, fun _ => rfl, fun _ _ => rfl,
    fun _ _ => rfl, ?_⟩
  · rw [← hiff, hres]
    unfold Outcome.result
    cases hf : (receiveOutcome c e).fault with
    | none => simp
    | some f => simp
  · intro c' sent h
    cases e with
    | TimeoutInd =>
      obtain ⟨h1, h2, h3⟩ := receive_tick_frame c c' sent h
      exact ⟨h1, fun _ => ⟨h2, h3⟩, fun d hd => (by cases hd),
        fun x y hxy => (by rcases hxy with hxy | hxy <;> cases hxy)⟩
    | DirectionInd d =>
      simp only [receive] at h
      split at h
      · cases h
      · simp only [Except.ok.injEq, Prod.mk.injEq] at h
        obtain ⟨hc, hs⟩ := h
        rw [← hc]
        exact ⟨rfl, fun he => (by cases he), fun _ _ => ⟨rfl, rfl, hs.symm⟩,
          fun x y hxy => (by rcases hxy with hxy | hxy <;> cases hxy)⟩
    | FoodInd x y =>
      simp only [receive, Except.ok.injEq, Prod.mk.injEq] at h
      rw [← h.1]
      refine ⟨rfl, fun he => (by cases he), fun d hd => (by cases hd), ?_⟩
      intro x' y' hxy
      rcases hxy with hxy | hxy
      · injection hxy with hx hy
        exact ⟨rfl, rfl, by rw [hx, hy]⟩
      · cases hxy
    | FoodResp x y =>
      simp only [receive, Except.ok.injEq, Prod.mk.injEq] at h
      rw [← h.1]
      refine ⟨rfl, fun he => (by cases he), fun d hd => (by cases hd), ?_⟩
      intro x' y' hxy
      rcases hxy with hxy | hxy
      · cases hxy
      · injection hxy with hx hy
        exact ⟨rfl, rfl, by rw [hx, hy]⟩
    | other => cases h

/-- An unknown event on the scenario state: the exception, nothing sent, the
state as before; and the tick of the same state goes to the tick handler and
leaves direction and food position alone. -/
theorem receive_dispatch_witness :
    receive scenarioState Event.other = Except.error Fault.UnexpectedEventException ∧
    receiveOutcome scenarioState Event.other =
      { state := scenarioState, sent := [], fault := some Fault.UnexpectedEventException } ∧
    receive scenarioState Event.TimeoutInd = tickHandler scenarioState ∧
    ((⟨(10, 10), (5, 5), Direction.UP, [⟨1, 0, 3⟩, ⟨1, 1, 2⟩, ⟨2, 1, 1⟩]⟩ :
        Controller).m_currentDirection = scenarioState.m_currentDirection ∧
     (⟨(10, 10), (5, 5), Direction.UP, [⟨1, 0, 3⟩, ⟨1, 1, 2⟩, ⟨2, 1, 1⟩]⟩ :
        Controller).m_foodPosition = scenarioState.m_foodPosition) :=
  ⟨(receive_dispatch scenarioState Event.other).1.mpr rfl,
   (receive_dispatch scenarioState Event.other).2.2.1,
   (receive_dispatch scenarioState Event.TimeoutInd).2.2.2.2.2.1,
   ((receive_dispatch scenarioState Event.TimeoutInd).2.2.2.2.2.2.2.2.2
      ⟨(10, 10), (5, 5), Direction.UP, [⟨1, 0, 3⟩, ⟨1, 1, 2⟩, ⟨2, 1, 1⟩]⟩
      [Notification.DisplayInd 3 1 Cell.FREE, Notification.DisplayInd 1 0 Cell.SNAKE]
      (by decide)).2.1 rfl⟩

end Snake
